import Mathlib

/-!
Shallow embedding of the LECS entity-component system (src/lecs.h and the
split copy src/lecs/lecs.hpp + src/lecs/lecs.inl) together with proofs of
the specification claims.

Machine integers are modelled as `Nat` with explicit reduction modulo
`2 ^ 32` (uint32 casts) and `2 ^ 64` sentinels where the source relies on
them.  `std::array` fields are modelled as total functions `Nat → α`;
`std::unordered_map` fields as functions into `Option`.
-/

namespace Lecs

/-- `LECS_MAX_COMPONENTS` (default configuration). -/
def MAX_COMPONENTS : Nat := 32

/-- `LECS_MAX_ENTITIES` (default configuration). -/
def MAX_ENTITIES : Nat := 5000

/-- `2 ^ 32`, the modulus of `uint32_t` (`EntityIndex`, `EntityGeneration`). -/
def U32 : Nat := 4294967296

/-- `Entity::INVALID_INDEX`: `(EntityIndex)(-1) = 2 ^ 32 - 1`. -/
def INVALID_INDEX : Nat := 4294967295

/-- `ComponentArray::ComponentIndex::INVALID_INDEX` in the split copy:
`(size_t)(-1) = 2 ^ 64 - 1`. -/
def INVALID_COMPONENT_INDEX : Nat := 18446744073709551615

/-- Pointwise update of a function modelling a C++ array or map write. -/
def updFn {α : Type} (f : Nat → α) (i : Nat) (v : α) : Nat → α :=
  fun j => if j = i then v else f j

/-- `lecs::Entity`: a `uint64_t` packing `(generation << 32) | index`. -/
structure Entity where
  id : Nat
  deriving DecidableEq, Repr

namespace Entity

/-- `Entity(EntityIndex index, EntityGeneration generation)`:
`id = ((uint64)generation << 32) | (uint64)index`.  Both casts reduce the
arguments mod `2 ^ 32`; the bit-or of the disjoint halves equals addition. -/
def make (index generation : Nat) : Entity :=
  ⟨(generation % U32) * U32 + index % U32⟩

/-- `Entity::get_index`: `(EntityIndex)id`, the low 32 bits. -/
def get_index (e : Entity) : Nat := e.id % U32

/-- `Entity::get_generation`: `(EntityGeneration)(id >> 32)`. -/
def get_generation (e : Entity) : Nat := e.id / U32 % U32

/-- `Entity::is_valid`: `get_index() != INVALID_INDEX`. -/
def is_valid (e : Entity) : Bool := e.get_index ≠ INVALID_INDEX

/-- `Entity::Invalid = { INVALID_INDEX, 0 }`. -/
def Invalid : Entity := make INVALID_INDEX 0

end Entity

/-- `lecs::ComponentMask = std::bitset<MAX_COMPONENTS>`, modelled as the set
of indices of set bits. -/
abbrev Mask : Type := Finset (Fin 32)

/-- `m_mask == (m_mask & other)`: the bitset test the iterator uses for
"required mask is a subset of the slot mask". -/
def maskMatch (req other : Mask) : Bool := req = req ∩ other

/-- `EntityArray::Entry`: the current id and component mask of a slot. -/
structure EntitySlot where
  id : Entity
  mask : Mask
  deriving DecidableEq

/-- Default-constructed slot: `Entity()` is `Entity::Invalid`, and a
default `std::bitset` is all-zero. -/
def EntitySlot.init : EntitySlot := ⟨Entity.Invalid, ∅⟩

/-- `lecs::EntityArray`.  `entities` models `m_entities` (a
`std::array<Entry, MAX_ENTITIES>`, extended to a total function);
`count` models `m_entities_count`; `free` models the stack
`m_free_indices[0 .. m_free_indices_count)` with the list head as the top
of the stack. -/
structure EntityArray where
  entities : Nat → EntitySlot
  count : Nat
  free : List Nat

namespace EntityArray

/-- Freshly constructed `EntityArray`: all slots default-initialized,
both counters zero. -/
def init : EntityArray := ⟨fun _ => EntitySlot.init, 0, []⟩

/-- `EntityArray::create_entity`. -/
def create_entity (a : EntityArray) : EntityArray × Entity :=
  match a.free with
  | i :: rest =>
      let new_generation := (a.entities i).id.get_generation
      let new_id := Entity.make i new_generation
      ({ a with
          entities := updFn a.entities new_id.get_index ⟨new_id, ∅⟩,
          free := rest },
        new_id)
  | [] =>
      let new_index := a.count % U32
      let new_id := Entity.make new_index 0
      ({ a with
          entities := updFn a.entities new_id.get_index ⟨new_id, ∅⟩,
          count := a.count + 1 },
        new_id)

/-- `EntityArray::remove_entity`. -/
def remove_entity (a : EntityArray) (e : Entity) : EntityArray :=
  let new_id := Entity.make INVALID_INDEX (e.get_generation + 1)
  let entity_index := e.get_index
  { a with
      entities := updFn a.entities entity_index ⟨new_id, ∅⟩,
      free := entity_index :: a.free }

/-- `EntityArray::get_component_mask`. -/
def get_component_mask (a : EntityArray) (i : Nat) : Mask := (a.entities i).mask

/-- `EntityArray::get_id`. -/
def get_id (a : EntityArray) (i : Nat) : Entity := (a.entities i).id

/-- `EntityArray::get_count`. -/
def get_count (a : EntityArray) : Nat := a.count

end EntityArray

/-!
`lecs::ComponentArray<T>` from src/lecs.h (the standalone header):
a dense value array plus two `std::unordered_map` index maps.
Component values are modelled by `Nat` (an arbitrary plain value type;
`T{}` value-initialization is the value `0`, matching the zero-filled
`m_component_array()` buffer).
-/

/-- The `std::unordered_map` version of the store (src/lecs.h). -/
structure StoreA where
  /-- `m_component_array`: the dense value buffer (zero-initialized). -/
  dense : Nat → Nat
  /-- `m_entity_to_index_map : unordered_map<EntityIndex, size_t>`. -/
  forward : Nat → Option Nat
  /-- `m_index_to_entity_map : unordered_map<size_t, EntityIndex>`. -/
  reverse : Nat → Option Nat
  /-- `m_size`. -/
  size : Nat

namespace StoreA

/-- `ComponentArray()`: zero-filled buffer, empty maps, size 0. -/
def empty : StoreA := ⟨fun _ => 0, fun _ => none, fun _ => none, 0⟩

/-- `ComponentArray::assign_new_index`. -/
def assign_new_index (st : StoreA) (entity_index : Nat) : StoreA × Nat :=
  let new_index := st.size
  ({ st with
      forward := updFn st.forward entity_index (some new_index),
      reverse := updFn st.reverse new_index (some entity_index),
      size := st.size + 1 },
    new_index)

/-- `ComponentArray::insert_data`: assign a new dense index and
placement-construct the component value there. -/
def insert_data (st : StoreA) (entity_index v : Nat) : StoreA :=
  let (st1, new_index) := st.assign_new_index entity_index
  { st1 with dense := updFn st1.dense new_index v }

/-- `ComponentArray::insert_data_default_initialized`: same, with a
value-initialized `T{}` (modelled as `0`). -/
def insert_data_default_initialized (st : StoreA) (entity_index : Nat) :
    StoreA :=
  let (st1, new_index) := st.assign_new_index entity_index
  { st1 with dense := updFn st1.dense new_index 0 }

/-- `ComponentArray::remove_data`.  `m_entity_to_index_map[entity_index]`
and `m_index_to_entity_map[index_of_last_element]` use `operator[]`, which
for an absent key default-constructs `0`; the transient insertions this
performs are erased again by the two `erase` calls below, so reading with
`Option.getD 0` models the net effect exactly.  The
destroy/move-construct/destroy dance on the dense buffer amounts, for a
plain value type, to copying the last element over the removed one. -/
def remove_data (st : StoreA) (entity_index : Nat) : StoreA :=
  let index_of_removed_entity := (st.forward entity_index).getD 0
  let index_of_last_element := st.size - 1
  let dense1 := updFn st.dense index_of_removed_entity
      (st.dense index_of_last_element)
  let entity_index_of_last_element := (st.reverse index_of_last_element).getD 0
  let forward1 := updFn st.forward entity_index_of_last_element
      (some index_of_removed_entity)
  let reverse1 := updFn st.reverse index_of_removed_entity
      (some entity_index_of_last_element)
  let forward2 := updFn forward1 entity_index none
  let reverse2 := updFn reverse1 index_of_last_element none
  ⟨dense1, forward2, reverse2, st.size - 1⟩

/-- `ComponentArray::has_data`: `find(entity_index) != end()`. -/
def has_data (st : StoreA) (entity_index : Nat) : Bool :=
  (st.forward entity_index).isSome

/-- `ComponentArray::get_data_from_entity_index` (again through
`operator[]`; only ever invoked under a `has_data`-equivalent guard). -/
def get_data_from_entity_index (st : StoreA) (entity_index : Nat) : Nat :=
  st.dense ((st.forward entity_index).getD 0)

/-- `ComponentArray::on_entity_removed`. -/
def on_entity_removed (st : StoreA) (entity_index : Nat) : StoreA :=
  if st.has_data entity_index then st.remove_data entity_index else st

end StoreA

/-!
`lecs::ComponentArray<T>` from the split copy (src/lecs/lecs.hpp with
definitions in src/lecs/lecs.inl): fixed `std::array` index maps with
sentinel markers instead of `std::unordered_map`.
-/

/-- The fixed-array version of the store (src/lecs/lecs.hpp + lecs.inl). -/
structure StoreB where
  /-- `m_component_array`: the dense value buffer (zero-initialized). -/
  dense : Nat → Nat
  /-- `m_entity_to_index_map : array<ComponentIndex, MAX_ENTITIES>`;
  each `ComponentIndex` default-constructs to `INVALID_COMPONENT_INDEX`. -/
  forward : Nat → Nat
  /-- `m_index_to_entity_map : array<EntityIndex, MAX_ENTITIES>`; this
  array is default-initialized, i.e. its initial contents are
  indeterminate.  The initial contents are therefore a parameter of the
  model (they are never read before being written). -/
  reverse : Nat → Nat
  /-- `m_size`. -/
  size : Nat

namespace StoreB

/-- `ComponentArray()` of the split copy: zero-filled dense buffer, all
forward entries `ComponentIndex()` (the invalid sentinel), reverse map
left with its indeterminate initial contents `rinit`. -/
def empty (rinit : Nat → Nat) : StoreB :=
  ⟨fun _ => 0, fun _ => INVALID_COMPONENT_INDEX, rinit, 0⟩

/-- `ComponentArray::assign_new_index` (lecs.inl). -/
def assign_new_index (st : StoreB) (entity_index : Nat) : StoreB × Nat :=
  let new_index := st.size
  ({ st with
      forward := updFn st.forward entity_index new_index,
      reverse := updFn st.reverse new_index entity_index,
      size := st.size + 1 },
    new_index)

/-- `ComponentArray::insert_data` (split copy). -/
def insert_data (st : StoreB) (entity_index v : Nat) : StoreB :=
  let (st1, new_index) := st.assign_new_index entity_index
  { st1 with dense := updFn st1.dense new_index v }

/-- `ComponentArray::insert_data_default_initialized` (split copy). -/
def insert_data_default_initialized (st : StoreB) (entity_index : Nat) :
    StoreB :=
  let (st1, new_index) := st.assign_new_index entity_index
  { st1 with dense := updFn st1.dense new_index 0 }

/-- `ComponentArray::remove_data` (lecs.inl): same swap-remove algorithm,
but the deprecated map entries are overwritten with the sentinels
`ComponentIndex::INVALID_INDEX` and `Entity::INVALID_INDEX` instead of
being erased. -/
def remove_data (st : StoreB) (entity_index : Nat) : StoreB :=
  let index_of_removed_entity := st.forward entity_index
  let index_of_last_element := st.size - 1
  let dense1 := updFn st.dense index_of_removed_entity
      (st.dense index_of_last_element)
  let entity_index_of_last_element := st.reverse index_of_last_element
  let forward1 := updFn st.forward entity_index_of_last_element
      index_of_removed_entity
  let reverse1 := updFn st.reverse index_of_removed_entity
      entity_index_of_last_element
  let forward2 := updFn forward1 entity_index INVALID_COMPONENT_INDEX
  let reverse2 := updFn reverse1 index_of_last_element INVALID_INDEX
  ⟨dense1, forward2, reverse2, st.size - 1⟩

/-- `ComponentArray::has_data` (split copy):
`m_entity_to_index_map[entity_index].index != ComponentIndex::INVALID_INDEX`. -/
def has_data (st : StoreB) (entity_index : Nat) : Bool :=
  st.forward entity_index ≠ INVALID_COMPONENT_INDEX

/-- `ComponentArray::get_data_from_entity_index` (split copy). -/
def get_data_from_entity_index (st : StoreB) (entity_index : Nat) : Nat :=
  st.dense (st.forward entity_index)

/-- `ComponentArray::on_entity_removed` (split copy). -/
def on_entity_removed (st : StoreB) (entity_index : Nat) : StoreB :=
  if st.has_data entity_index then st.remove_data entity_index else st

end StoreB

/-- Pointwise update of a component-store slot array indexed by
`ComponentTypeId`. -/
def updC {α : Type} (f : Fin 32 → α) (c : Fin 32) (v : α) : Fin 32 → α :=
  fun c' => if c' = c then v else f c'

/-!
`lecs::ECS`, src/lecs.h version.  Component types are identified by their
`ComponentID` (a `Fin 32`, since `MAX_COMPONENTS = 32` bounds both the
mask width and the store slot array); the component payload type is
modelled by `Nat`.
-/

/-- `lecs::ECS` with `std::unordered_map`-based stores (src/lecs.h). -/
structure ECSA where
  /-- `m_entities`. -/
  ents : EntityArray
  /-- `m_components : array<unique_ptr<IComponentArray>, MAX_COMPONENTS>`;
  `none` models a null pointer (store not yet lazily created). -/
  stores : Fin 32 → Option StoreA

namespace ECSA

/-- A default-constructed `ECS`. -/
def init : ECSA := ⟨EntityArray.init, fun _ => none⟩

/-- `ECS::is_entity_handle_active`. -/
def is_entity_handle_active (s : ECSA) (e : Entity) : Bool :=
  e.is_valid && decide (s.ents.get_id e.get_index = e)

/-- `ECS::create_entity`. -/
def create_entity (s : ECSA) : ECSA × Entity :=
  let (a, e) := s.ents.create_entity
  ({ s with ents := a }, e)

/-- `ECS::remove_entity`: if the handle is active, fan
`on_entity_removed` out to every instantiated store, then remove the
entity from the table. -/
def remove_entity (s : ECSA) (e : Entity) : ECSA :=
  if s.is_entity_handle_active e then
    { ents := (s.ents.remove_entity e),
      stores := fun c =>
        match s.stores c with
        | some st => some (st.on_entity_removed e.get_index)
        | none => none }
  else s

/-- `ECS::get_component_array<T>`: lazily create the store on first use. -/
def get_component_array (s : ECSA) (c : Fin 32) : StoreA :=
  match s.stores c with
  | some st => st
  | none => StoreA.empty

/-- `ECS::add_component_to_entity<T>`. -/
def add_component_to_entity (s : ECSA) (c : Fin 32) (e : Entity) :
    ECSA × Bool :=
  let entity_index := e.get_index
  if ¬ s.is_entity_handle_active e ∨
      c ∈ s.ents.get_component_mask entity_index then
    (s, false)
  else
    let st := s.get_component_array c
    let st1 := st.insert_data_default_initialized entity_index
    let a1 := { s.ents with
        entities := updFn s.ents.entities entity_index
          ⟨(s.ents.entities entity_index).id,
            insert c (s.ents.entities entity_index).mask⟩ }
    ({ ents := a1, stores := updC s.stores c (some st1) }, true)

/-- `ECS::remove_component_from_entity<T>`. -/
def remove_component_from_entity (s : ECSA) (c : Fin 32) (e : Entity) :
    ECSA × Bool :=
  let entity_index := e.get_index
  if ¬ s.is_entity_handle_active e ∨
      c ∉ s.ents.get_component_mask entity_index then
    (s, false)
  else
    let st := s.get_component_array c
    let st1 := st.remove_data entity_index
    let a1 := { s.ents with
        entities := updFn s.ents.entities entity_index
          ⟨(s.ents.entities entity_index).id,
            (s.ents.entities entity_index).mask.erase c⟩ }
    ({ ents := a1, stores := updC s.stores c (some st1) }, true)

/-- `ECS::has_component<T>`. -/
def has_component (s : ECSA) (c : Fin 32) (e : Entity) : Bool :=
  s.is_entity_handle_active e &&
    decide (c ∈ s.ents.get_component_mask e.get_index)

/-- `ECS::get_component<T>`: `nullptr` (`none`) when `has_component` is
false, the stored value otherwise.  When the guard holds the store exists
and holds the entity (a proved invariant), so the

lazy-creation path of `get_component_array` is never taken here. -/
def get_component (s : ECSA) (c : Fin 32) (e : Entity) : Option Nat :=
  if s.has_component c e then
    some ((s.get_component_array c).get_data_from_entity_index e.get_index)
  else none

/-- `ECS::get_component_mask_from_index`. -/
def get_component_mask_from_index (s : ECSA) (i : Nat) : Mask :=
  s.ents.get_component_mask i

/-- `ECS::get_entity_count`. -/
def get_entity_count (s : ECSA) : Nat := s.ents.get_count

/-- `ECS::get_entity_from_index`. -/
def get_entity_from_index (s : ECSA) (i : Nat) : Entity := s.ents.get_id i

end ECSA

/-- `lecs::ECS` of the split copy (fixed-array stores).  The extra
parameter `rinit` supplies the indeterminate initial contents of each
lazily created store's `m_index_to_entity_map`. -/
structure ECSB where
  /-- `m_entities`. -/
  ents : EntityArray
  /-- `m_components`, `none` for a null pointer. -/
  stores : Fin 32 → Option StoreB

namespace ECSB

/-- A default-constructed split-copy `ECS`. -/
def init : ECSB := ⟨EntityArray.init, fun _ => none⟩

/-- `ECS::is_entity_handle_active` (lecs.inl). -/
def is_entity_handle_active (s : ECSB) (e : Entity) : Bool :=
  e.is_valid && decide (s.ents.get_id e.get_index = e)

/-- `ECS::create_entity` (lecs.inl). -/
def create_entity (s : ECSB) : ECSB × Entity :=
  let (a, e) := s.ents.create_entity
  ({ s with ents := a }, e)

/-- `ECS::remove_entity` (lecs.inl). -/
def remove_entity (s : ECSB) (e : Entity) : ECSB :=
  if s.is_entity_handle_active e then
    { ents := (s.ents.remove_entity e),
      stores := fun c =>
        match s.stores c with
        | some st => some (st.on_entity_removed e.get_index)
        | none => none }
  else s

/-- `ECS::get_component_array_by_component_id<T>` (lecs.inl), lazily
creating the store with indeterminate reverse-map contents `rinit`. -/
def get_component_array (rinit : Fin 32 → Nat → Nat) (s : ECSB)
    (c : Fin 32) : StoreB :=
  match s.stores c with
  | some st => st
  | none => StoreB.empty (rinit c)

/-- `ECS::add_component_to_entity<T>` (lecs.inl). -/
def add_component_to_entity (rinit : Fin 32 → Nat → Nat) (s : ECSB)
    (c : Fin 32) (e : Entity) : ECSB × Bool :=
  let entity_index := e.get_index
  if ¬ s.is_entity_handle_active e ∨
      c ∈ s.ents.get_component_mask entity_index then
    (s, false)
  else
    let st := get_component_array rinit s c
    let st1 := st.insert_data_default_initialized entity_index
    let a1 := { s.ents with
        entities := updFn s.ents.entities entity_index
          ⟨(s.ents.entities entity_index).id,
            insert c (s.ents.entities entity_index).mask⟩ }
    ({ ents := a1, stores := updC s.stores c (some st1) }, true)

/-- `ECS::remove_component_from_entity<T>` (lecs.inl). -/
def remove_component_from_entity (rinit : Fin 32 → Nat → Nat) (s : ECSB)
    (c : Fin 32) (e : Entity) : ECSB × Bool :=
  let entity_index := e.get_index
  if ¬ s.is_entity_handle_active e ∨
      c ∉ s.ents.get_component_mask entity_index then
    (s, false)
  else
    let st := get_component_array rinit s c
    let st1 := st.remove_data entity_index
    let a1 := { s.ents with
        entities := updFn s.ents.entities entity_index
          ⟨(s.ents.entities entity_index).id,
            (s.ents.entities entity_index).mask.erase c⟩ }
    ({ ents := a1, stores := updC s.stores c (some st1) }, true)

/-- `ECS::has_component<T>` (lecs.inl). -/
def has_component (s : ECSB) (c : Fin 32) (e : Entity) : Bool :=
  s.is_entity_handle_active e &&
    decide (c ∈ s.ents.get_component_mask e.get_index)

/-- `ECS::get_component<T>` (lecs.inl). -/
def get_component (rinit : Fin 32 → Nat → Nat) (s : ECSB) (c : Fin 32)
    (e : Entity) : Option Nat :=
  if s.has_component c e then
    some ((get_component_array rinit s c).get_data_from_entity_index
      e.get_index)
  else none

/-- `ECS::get_component_mask_from_index` (lecs.inl). -/
def get_component_mask_from_index (s : ECSB) (i : Nat) : Mask :=
  s.ents.get_component_mask i

/-- `ECS::get_entity_count` (lecs.inl). -/
def get_entity_count (s : ECSB) : Nat := s.ents.get_count

/-- `ECS::get_entity_from_index` (lecs.inl). -/
def get_entity_from_index (s : ECSB) (i : Nat) : Entity := s.ents.get_id i

end ECSB

/-!
`lecs::EntityIterator<ComponentTypes...>`, modelled as pure functions
computing, over a fixed registry snapshot, the sequence of entities a
range-for loop over the iterator yields.  The constructor argument — the
pack of component types — is modelled as the list of their
`ComponentID`s; the constructor sets `m_all` iff the pack is empty and
otherwise sets each listed bit in `m_component_mask`.
-/

/-- The `m_component_mask` computed by the `EntityIterator` constructor. -/
def iterMask (cs : List (Fin 32)) : Mask :=
  cs.foldl (fun m c => insert c m) ∅

/-- `EntityIterator::Iterator::valid_index` (src/lecs.h). -/
def validIndexA (s : ECSA) (req : Mask) (all : Bool) (i : Nat) : Bool :=
  (s.get_entity_from_index i).is_valid &&
    (all || maskMatch req (s.get_component_mask_from_index i))

/-- The scan loop of `EntityIterator::begin` (src/lecs.h): advance while
the index is in range and the slot mask does not contain the required
mask.  Note the loop does not consult `valid_index` (no liveness test).
The loop terminates because the index climbs towards the entity count;
the structural `fuel` argument (an upper bound on the remaining
distance, `get_entity_count - first_index` at every call) encodes
exactly that: when `fuel` is `0` the loop guard `first_index < count`
is false anyway. -/
def beginScanA (s : ECSA) (req : Mask) : Nat → Nat → Nat
  | 0, first_index => first_index
  | fuel + 1, first_index =>
      if first_index < s.get_entity_count ∧
          ¬ maskMatch req (s.get_component_mask_from_index first_index)
            = true then
        beginScanA s req fuel (first_index + 1)
      else first_index

/-- The do-while loop of `EntityIterator::Iterator::operator++`
(src/lecs.h), after the initial increment; same fuel encoding. -/
def advScanA (s : ECSA) (req : Mask) (all : Bool) : Nat → Nat → Nat
  | 0, j => j
  | fuel + 1, j =>
      if j < s.get_entity_count ∧ validIndexA s req all j = false then
        advScanA s req all fuel (j + 1)
      else j

/-- `operator++`: increment once, then scan. -/
def incrementA (s : ECSA) (req : Mask) (all : Bool) (i : Nat) : Nat :=
  advScanA s req all (s.get_entity_count - (i + 1)) (i + 1)

/-- The range-for loop over the iterator: while `it != end` (i.e. the
current index differs from the entity count; indices never exceed the
count, so this is `index < count`), yield `*it` and `++it`.  Fuel as in
`beginScanA`: the loop stops as soon as `i` reaches the count, and `i`
grows by at least one per iteration. -/
def collectA (s : ECSA) (req : Mask) (all : Bool) : Nat → Nat → List Entity
  | 0, _ => []
  | fuel + 1, i =>
      if i < s.get_entity_count then
        s.get_entity_from_index i ::
          collectA s req all fuel (incrementA s req all i)
      else []

/-- The full entity sequence yielded by
`for (Entity e : EntityIterator<Cs...>(ecs))` for the src/lecs.h copy. -/
def iterListA (s : ECSA) (cs : List (Fin 32)) : List Entity :=
  collectA s (iterMask cs) cs.isEmpty s.get_entity_count
    (beginScanA s (iterMask cs) s.get_entity_count 0)

/-- `EntityIterator::Iterator::valid_index` (split copy). -/
def validIndexB (s : ECSB) (req : Mask) (all : Bool) (i : Nat) : Bool :=
  (s.get_entity_from_index i).is_valid &&
    (all || maskMatch req (s.get_component_mask_from_index i))

/-- `EntityIterator::begin` scan of the split copy; the bound `cnt` is
the `m_entity_count` captured when the iterator was constructed. -/
def beginScanB (s : ECSB) (cnt : Nat) (req : Mask) : Nat → Nat → Nat
  | 0, first_index => first_index
  | fuel + 1, first_index =>
      if first_index < cnt ∧
          ¬ maskMatch req (s.get_component_mask_from_index first_index)
            = true then
        beginScanB s cnt req fuel (first_index + 1)
      else first_index

/-- `operator++` scan of the split copy (captured bound). -/
def advScanB (s : ECSB) (cnt : Nat) (req : Mask) (all : Bool) :
    Nat → Nat → Nat
  | 0, j => j
  | fuel + 1, j =>
      if j < cnt ∧ validIndexB s req all j = false then
        advScanB s cnt req all fuel (j + 1)
      else j

/-- Range-for loop of the split copy. -/
def collectB (s : ECSB) (cnt : Nat) (req : Mask) (all : Bool) :
    Nat → Nat → List Entity
  | 0, _ => []
  | fuel + 1, i =>
      if i < cnt then
        s.get_entity_from_index i ::
          collectB s cnt req all fuel
            (advScanB s cnt req all (cnt - (i + 1)) (i + 1))
      else []

/-- The full entity sequence yielded by the split copy's iterator; the
constructor captures `m_entity_count = ecs.get_entity_count()`. -/
def iterListB (s : ECSB) (cs : List (Fin 32)) : List Entity :=
  collectB s s.get_entity_count (iterMask cs) cs.isEmpty s.get_entity_count
    (beginScanB s s.get_entity_count (iterMask cs) s.get_entity_count 0)

/-!
Operation sequences: the public API calls a caller can issue, and the
observable result of each.  `iterate cs` is one atomic API interaction
(construct an iterator and exhaust it), so no structural mutation happens
while an iterator is in use.
-/

/-- One public API call. -/
inductive Op where
  | create : Op
  | remove (e : Entity) : Op
  | addComp (c : Fin 32) (e : Entity) : Op
  | removeComp (c : Fin 32) (e : Entity) : Op
  | hasComp (c : Fin 32) (e : Entity) : Op
  | getComp (c : Fin 32) (e : Entity) : Op
  | iterate (cs : List (Fin 32)) : Op
  deriving DecidableEq, Repr

/-- The observable result of one API call. -/
inductive Out where
  | ent (e : Entity) : Out
  | ok (b : Bool) : Out
  | val (v : Option Nat) : Out
  | list (l : List Entity) : Out
  | unit : Out
  deriving DecidableEq, Repr

/-- One step of the src/lecs.h copy. -/
def stepA (s : ECSA) : Op → ECSA × Out
  | .create => let (s1, e) := s.create_entity; (s1, .ent e)
  | .remove e => (s.remove_entity e, .unit)
  | .addComp c e =>
      let (s1, b) := s.add_component_to_entity c e; (s1, .ok b)
  | .removeComp c e =>
      let (s1, b) := s.remove_component_from_entity c e; (s1, .ok b)
  | .hasComp c e => (s, .ok (s.has_component c e))
  | .getComp c e => (s, .val (s.get_component c e))
  | .iterate cs => (s, .list (iterListA s cs))

/-- Run a sequence of API calls on the src/lecs.h copy. -/
def runA (s : ECSA) : List Op → ECSA
  | [] => s
  | op :: rest => runA (stepA s op).1 rest

/-- The observable results along a run of the src/lecs.h copy. -/
def outsA (s : ECSA) : List Op → List Out
  | [] => []
  | op :: rest => (stepA s op).2 :: outsA (stepA s op).1 rest

/-- One step of the split copy. -/
def stepB (rinit : Fin 32 → Nat → Nat) (s : ECSB) : Op → ECSB × Out
  | .create => let (s1, e) := s.create_entity; (s1, .ent e)
  | .remove e => (s.remove_entity e, .unit)
  | .addComp c e =>
      let (s1, b) := s.add_component_to_entity rinit c e; (s1, .ok b)
  | .removeComp c e =>
      let (s1, b) := s.remove_component_from_entity rinit c e; (s1, .ok b)
  | .hasComp c e => (s, .ok (s.has_component c e))
  | .getComp c e => (s, .val (s.get_component rinit c e))
  | .iterate cs => (s, .list (iterListB s cs))

/-- Run a sequence of API calls on the split copy. -/
def runB (rinit : Fin 32 → Nat → Nat) (s : ECSB) : List Op → ECSB
  | [] => s
  | op :: rest => runB rinit (stepB rinit s op).1 rest

/-- The observable results along a run of the split copy. -/
def outsB (rinit : Fin 32 → Nat → Nat) (s : ECSB) : List Op → List Out
  | [] => []
  | op :: rest => (stepB rinit s op).2 :: outsB rinit (stepB rinit s op).1 rest

/-- A `create_entity` call is within capacity: there is a free index to
pop, or the high-water index counter is still below `MAX_ENTITIES`.
On a call violating this, the C++ writes out of bounds (see claim C1). -/
def stepOKA (s : ECSA) : Op → Bool
  | .create => !s.ents.free.isEmpty || decide (s.ents.count < MAX_ENTITIES)
  | _ => true

/-- Every call in the sequence stays within entity capacity. -/
def safeA (s : ECSA) : List Op → Bool
  | [] => true
  | op :: rest => stepOKA s op && safeA (stepA s op).1 rest

/-- One operation on a single component store. -/
inductive StoreOp where
  | ins (e v : Nat) : StoreOp
  | rem (e : Nat) : StoreOp
  deriving DecidableEq, Repr

/-- Run a sequence of insert/remove operations on a store (src/lecs.h
copy). -/
def runStore (st : StoreA) : List StoreOp → StoreA
  | [] => st
  | .ins e v :: rest => runStore (st.insert_data e v) rest
  | .rem e :: rest => runStore (st.remove_data e) rest

/-- Preconditions of a store op sequence: a remove only targets an
entity the store currently holds, and an insert only targets an entity
it does not currently hold (the discipline `ECS` enforces through the
mask checks). -/
def okStore (st : StoreA) : List StoreOp → Bool
  | [] => true
  | .ins e _v :: rest => !st.has_data e && okStore (st.insert_data e _v) rest
  | .rem e :: rest => st.has_data e && okStore (st.remove_data e) rest

/-- Spec-side predicate: index `i` holds a live entity whose mask is a
superset of the required mask. -/
def liveAndContains (s : ECSA) (req : Mask) (i : Nat) : Bool :=
  (s.get_entity_from_index i).is_valid &&
    decide (req ⊆ s.get_component_mask_from_index i)

/-- Spec-side description of a full filtered iteration: the entities at
exactly the indices in `[0, entity_count)` that are live and match,
in ascending index order. -/
def iterSpec (s : ECSA) (req : Mask) : List Entity :=
  ((List.range s.get_entity_count).filter (liveAndContains s req)).map
    (s.get_entity_from_index)

/-!
Store-level development: the dense-packing invariant of
`ComponentArray` and the swap-remove lemmas.
-/

/-- The dense-packing invariant of a `ComponentArray` (src/lecs.h copy):
the reverse map is populated exactly on the dense range `[0, size)`, and
the two index maps are mutually inverse. -/
structure SInvA (st : StoreA) : Prop where
  rev_size : ∀ d, (st.reverse d).isSome ↔ d < st.size
  rev_fwd : ∀ d e, st.reverse d = some e → st.forward e = some d
  fwd_rev : ∀ e d, st.forward e = some d → st.reverse d = some e

/-- The reachable-state invariant of the registry (src/lecs.h copy),
tying the entity table, the masks and the component stores together. -/
structure InvA (s : ECSA) : Prop where
  /-- Mask/store consistency: bit `c` of slot `i` is set iff the store
  for `c` exists and holds a value for entity index `i`. -/
  mask_store : ∀ (c : Fin 32) (i : Nat),
    c ∈ (s.ents.entities i).mask ↔
      ∃ st, s.stores c = some st ∧ st.has_data i = true
  /-- A slot that does not hold a live id has an empty mask. -/
  dead_mask : ∀ i, (s.ents.entities i).id.is_valid = false →
    (s.ents.entities i).mask = ∅
  /-- A live slot stores an id whose index field is the slot's index. -/
  live_index : ∀ i, (s.ents.entities i).id.is_valid = true →
    (s.ents.entities i).id.get_index = i
  /-- Slots at or above the high-water count are still default. -/
  high_free : ∀ i, s.ents.count ≤ i → s.ents.entities i = EntitySlot.init
  /-- Every instantiated store satisfies the dense-packing invariant. -/
  store_inv : ∀ c st, s.stores c = some st → SInvA st
  /-- Stores only hold entity indices below the high-water count. -/
  store_lt : ∀ c st e, s.stores c = some st → st.has_data e = true →
    e < s.ents.count
  /-- Indices on the free stack refer to dead slots. -/
  free_dead : ∀ i ∈ s.ents.free, (s.ents.entities i).id.is_valid = false
  /-- Indices on the free stack are below the high-water count. -/
  free_lt : ∀ i ∈ s.ents.free, i < s.ents.count
  /-- The free stack holds no duplicates. -/
  free_nodup : s.ents.free.Nodup
  /-- The high-water count stays within the configured capacity (holds
  along capacity-safe traces). -/
  count_le : s.ents.count ≤ MAX_ENTITIES

/-- Coupling of an unordered-map store entry (src/lecs.h) with a
sentinel-array store entry (split copy): equal sizes, forward maps equal
modulo the `absent = INVALID` sentinel encoding, and reverse map and
dense values equal on the populated range `[0, size)`. -/
structure RelStore (a : StoreA) (b : StoreB) : Prop where
  size_eq : a.size = b.size
  fwd : ∀ e, match a.forward e with
    | some d => b.forward e = d ∧ d ≠ INVALID_COMPONENT_INDEX
    | none => b.forward e = INVALID_COMPONENT_INDEX
  rev : ∀ d, d < a.size → a.reverse d = some (b.reverse d)
  dense : ∀ d, d < a.size → a.dense d = b.dense d

/-- Lifted store coupling: both copies have instantiated exactly the
same stores. -/
def RelOpt : Option StoreA → Option StoreB → Prop
  | none, none => True
  | some a, some b => RelStore a b
  | _, _ => False

/-- Coupling of whole registries: identical entity tables, coupled
stores. -/
structure RelECS (s : ECSA) (t : ECSB) : Prop where
  ents_eq : s.ents = t.ents
  stores : ∀ c, RelOpt (s.stores c) (t.stores c)

/-!
Helper lemmas.
-/

@[simp] theorem updFn_same {A : Type} (f : Nat -> A) (i : Nat) (v : A) :
    updFn f i v i = v := by simp [updFn]

theorem updFn_ne {A : Type} (f : Nat -> A) (i j : Nat) (v : A)
    (h : j ≠ i) : updFn f i v j = f j := by simp [updFn, h]

@[simp] theorem updC_same {A : Type} (f : Fin 32 -> A) (c : Fin 32) (v : A) :
    updC f c v c = v := by simp [updC]

theorem updC_ne {A : Type} (f : Fin 32 -> A) (c c' : Fin 32) (v : A)
    (h : c' ≠ c) : updC f c v c' = f c' := by simp [updC, h]

@[simp] theorem Entity.get_index_make (i g : Nat) :
    (Entity.make i g).get_index = i % U32 := by
  simp only [Entity.make, Entity.get_index, U32]
  omega

@[simp] theorem Entity.get_generation_make (i g : Nat) :
    (Entity.make i g).get_generation = g % U32 := by
  simp only [Entity.make, Entity.get_generation, U32]
  omega

theorem Entity.make_inj_of_lt {i g i' g' : Nat} (hi : i < U32)
    (hg : g < U32) (hi' : i' < U32) (hg' : g' < U32)
    (h : Entity.make i g = Entity.make i' g') : i = i' ∧ g = g' := by
  have h1 := congrArg Entity.get_index h
  have h2 := congrArg Entity.get_generation h
  rw [Entity.get_index_make, Entity.get_index_make] at h1
  rw [Entity.get_generation_make, Entity.get_generation_make] at h2
  rw [Nat.mod_eq_of_lt hi, Nat.mod_eq_of_lt hi'] at h1
  rw [Nat.mod_eq_of_lt hg, Nat.mod_eq_of_lt hg'] at h2
  exact ⟨h1, h2⟩

theorem Entity.is_valid_make_iff (i g : Nat) :
    (Entity.make i g).is_valid = true ↔ i % U32 ≠ INVALID_INDEX := by
  simp [Entity.is_valid, Entity.get_index_make]

theorem Entity.Invalid_is_valid : Entity.Invalid.is_valid = false := by
  decide

theorem SInvA.fwd_lt {st : StoreA} (h : SInvA st) {e d : Nat}
    (hf : st.forward e = some d) : d < st.size := by
  have := h.fwd_rev e d hf
  have := (h.rev_size d).mp (by simp [this])
  exact this

theorem SInvA.empty : SInvA StoreA.empty := by
  constructor <;> simp [StoreA.empty]

theorem StoreA.insert_default_eq (st : StoreA) (e : Nat) :
    st.insert_data_default_initialized e = st.insert_data e 0 := rfl

theorem SInvA.insert {st : StoreA} (h : SInvA st) (e v : Nat)
    (he : st.has_data e = false) : SInvA (st.insert_data e v) := by
  have hfe : st.forward e = none := by
    simpa [StoreA.has_data, Option.isSome_iff_exists] using he
  constructor
  · intro d
    by_cases hd : d = st.size
    · subst hd
      simp [StoreA.insert_data, StoreA.assign_new_index]
    · simp only [StoreA.insert_data, StoreA.assign_new_index]
      rw [updFn_ne _ _ _ _ hd]
      rw [h.rev_size d]
      omega
  · intro d e' hrev
    by_cases hd : d = st.size
    · subst hd
      simp only [StoreA.insert_data, StoreA.assign_new_index, updFn_same] at hrev
      cases hrev
      simp [StoreA.insert_data, StoreA.assign_new_index]
    · simp only [StoreA.insert_data, StoreA.assign_new_index] at hrev ⊢
      rw [updFn_ne _ _ _ _ hd] at hrev
      have hf := h.rev_fwd d e' hrev
      have he' : e' ≠ e := fun hcon => by rw [hcon, hfe] at hf; cases hf
      rw [updFn_ne _ _ _ _ he']
      exact hf
  · intro e' d hfwd
    by_cases he' : e' = e
    · subst he'
      simp only [StoreA.insert_data, StoreA.assign_new_index, updFn_same] at hfwd
      cases hfwd
      simp [StoreA.insert_data, StoreA.assign_new_index]
    · simp only [StoreA.insert_data, StoreA.assign_new_index] at hfwd ⊢
      rw [updFn_ne _ _ _ _ he'] at hfwd
      have hd : d ≠ st.size := by
        have := h.fwd_lt hfwd
        omega
      rw [updFn_ne _ _ _ _ hd]
      exact h.fwd_rev e' d hfwd

theorem SInvA.remove {st : StoreA} (h : SInvA st) {e d0 : Nat}
    (he : st.forward e = some d0) : SInvA (st.remove_data e) := by
  have hd0 : d0 < st.size := h.fwd_lt he
  have hsz : 1 ≤ st.size := by omega
  have hlast : (st.reverse (st.size - 1)).isSome := by
    rw [h.rev_size]; omega
  obtain ⟨eL, hrevL⟩ := Option.isSome_iff_exists.mp hlast
  have hfL : st.forward eL = some (st.size - 1) := h.rev_fwd _ _ hrevL
  have hinj_last : ∀ e2, st.forward e2 = some (st.size - 1) → e2 = eL := by
    intro e2 hf2
    have := h.fwd_rev _ _ hf2
    rw [hrevL] at this
    cases this
    rfl
  have hinj_d0 : ∀ e2, st.forward e2 = some d0 → e2 = e := by
    intro e2 hf2
    have h1 := h.fwd_rev _ _ hf2
    have h2 := h.fwd_rev _ _ he
    rw [h1] at h2
    cases h2
    rfl
  have hfwd2 : (st.remove_data e).forward =
      updFn (updFn st.forward eL (some d0)) e none := by
    simp [StoreA.remove_data, he, hrevL]
  have hrev2 : (st.remove_data e).reverse =
      updFn (updFn st.reverse d0 (some eL)) (st.size - 1) none := by
    simp [StoreA.remove_data, he, hrevL]
  have hsz2 : (st.remove_data e).size = st.size - 1 := by
    simp [StoreA.remove_data]
  constructor
  · intro d
    rw [hrev2, hsz2]
    by_cases hdl : d = st.size - 1
    · subst hdl
      simp [updFn_same]
    · rw [updFn_ne _ _ _ _ hdl]
      by_cases hdd : d = d0
      · subst hdd
        simp only [updFn_same]
        simp only [Option.isSome_some, true_iff]
        omega
      · rw [updFn_ne _ _ _ _ hdd]
        rw [h.rev_size d]
        omega
  · intro d e' hrev
    rw [hrev2] at hrev
    rw [hfwd2]
    by_cases hdl : d = st.size - 1
    · subst hdl
      simp [updFn_same] at hrev
    · rw [updFn_ne _ _ _ _ hdl] at hrev
      by_cases hdd : d = d0
      · subst hdd
        simp only [updFn_same] at hrev
        cases hrev
        have heL : eL ≠ e := by
          intro hcon
          rw [hcon, he] at hfL
          cases hfL
          omega
        rw [updFn_ne _ _ _ _ heL, updFn_same]
      · rw [updFn_ne _ _ _ _ hdd] at hrev
        have hf := h.rev_fwd d e' hrev
        have he1 : e' ≠ e := by
          intro hcon
          rw [hcon, he] at hf
          cases hf
          exact hdd rfl
        have he2 : e' ≠ eL := by
          intro hcon
          rw [hcon, hfL] at hf
          cases hf
          exact hdl rfl
        rw [updFn_ne _ _ _ _ he1, updFn_ne _ _ _ _ he2]
        exact hf
  · intro e' d hfwd
    rw [hfwd2] at hfwd
    rw [hrev2]
    by_cases he1 : e' = e
    · subst he1
      simp [updFn_same] at hfwd
    · rw [updFn_ne _ _ _ _ he1] at hfwd
      by_cases he2 : e' = eL
      · rw [he2, updFn_same] at hfwd
        injection hfwd with hd
        subst hd
        have hdl : d0 ≠ st.size - 1 := by
          intro hcon
          have hee : e = eL := hinj_last e (by rw [← hcon]; exact he)
          exact he1 (he2.trans hee.symm)
        rw [he2, updFn_ne _ _ _ _ hdl, updFn_same]
      · rw [updFn_ne _ _ _ _ he2] at hfwd
        have hrev := h.fwd_rev e' d hfwd
        have hdl : d ≠ st.size - 1 := by
          intro hcon
          exact he2 (hinj_last e' (hcon ▸ hfwd))
        have hdd : d ≠ d0 := by
          intro hcon
          exact he1 (hinj_d0 e' (hcon ▸ hfwd))
        rw [updFn_ne _ _ _ _ hdl, updFn_ne _ _ _ _ hdd]
        exact hrev

theorem StoreA.forward_insert (st : StoreA) (e v e' : Nat) :
    (st.insert_data e v).forward e' =
      if e' = e then some st.size else st.forward e' := by
  simp [StoreA.insert_data, StoreA.assign_new_index, updFn]

theorem StoreA.has_data_insert (st : StoreA) (e v e' : Nat) :
    (st.insert_data e v).has_data e' =
      if e' = e then true else st.has_data e' := by
  simp only [StoreA.has_data, StoreA.forward_insert]
  by_cases h : e' = e <;> simp [h]

theorem StoreA.size_insert (st : StoreA) (e v : Nat) :
    (st.insert_data e v).size = st.size + 1 := rfl

theorem StoreA.remove_forward {st : StoreA} {e d0 : Nat}
    (he : st.forward e = some d0) :
    (st.remove_data e).forward =
      updFn (updFn st.forward ((st.reverse (st.size - 1)).getD 0) (some d0))
        e none := by
  simp [StoreA.remove_data, he]

theorem StoreA.remove_reverse {st : StoreA} {e d0 : Nat}
    (he : st.forward e = some d0) :
    (st.remove_data e).reverse =
      updFn (updFn st.reverse d0 (some ((st.reverse (st.size - 1)).getD 0)))
        (st.size - 1) none := by
  simp [StoreA.remove_data, he]

theorem StoreA.remove_dense {st : StoreA} {e d0 : Nat}
    (he : st.forward e = some d0) :
    (st.remove_data e).dense =
      updFn st.dense d0 (st.dense (st.size - 1)) := by
  simp [StoreA.remove_data, he]

theorem StoreA.remove_size (st : StoreA) (e : Nat) :
    (st.remove_data e).size = st.size - 1 := rfl

theorem StoreA.has_data_remove {st : StoreA} (h : SInvA st) {e d0 : Nat}
    (he : st.forward e = some d0) (e' : Nat) :
    (st.remove_data e).has_data e' =
      if e' = e then false else st.has_data e' := by
  have hd0 : d0 < st.size := h.fwd_lt he
  have hlast : (st.reverse (st.size - 1)).isSome := by
    rw [h.rev_size]; omega
  obtain ⟨eL, hrevL⟩ := Option.isSome_iff_exists.mp hlast
  have hfL : st.forward eL = some (st.size - 1) := h.rev_fwd _ _ hrevL
  simp only [StoreA.has_data, StoreA.remove_forward he]
  by_cases h1 : e' = e
  · simp [h1, updFn_same]
  · rw [updFn_ne _ _ _ _ h1]
    by_cases h2 : e' = (st.reverse (st.size - 1)).getD 0
    · rw [h2, updFn_same]
      rw [hrevL]
      rw [hrevL] at h2
      simp only [Option.getD_some] at h2
      have hne : eL ≠ e := fun hc => h1 (h2.trans hc)
      simp [hne, hfL]
    · rw [updFn_ne _ _ _ _ h2]
      simp [h1]

theorem StoreA.on_entity_removed_sinv {st : StoreA} (h : SInvA st)
    (i : Nat) : SInvA (st.on_entity_removed i) := by
  rw [StoreA.on_entity_removed]
  by_cases hh : st.has_data i = true
  · rw [if_pos hh]
    obtain ⟨d0, hd0⟩ := Option.isSome_iff_exists.mp hh
    exact h.remove hd0
  · rw [if_neg (by simpa using hh)]
    exact h

theorem StoreA.has_data_on_entity_removed {st : StoreA} (h : SInvA st)
    (i e' : Nat) :
    (st.on_entity_removed i).has_data e' =
      if e' = i then false else st.has_data e' := by
  rw [StoreA.on_entity_removed]
  by_cases hh : st.has_data i = true
  · rw [if_pos hh]
    obtain ⟨d0, hd0⟩ := Option.isSome_iff_exists.mp hh
    exact StoreA.has_data_remove h hd0 e'
  · rw [if_neg (by simpa using hh)]
    by_cases h1 : e' = i
    · subst h1
      simp only [if_pos rfl]
      simpa using hh
    · simp [h1]

theorem SInvA.runStore {st : StoreA} (h : SInvA st) (ops : List StoreOp)
    (hok : okStore st ops = true) : SInvA (runStore st ops) := by
  induction ops generalizing st with
  | nil => exact h
  | cons op rest ih =>
      cases op with
      | ins e v =>
          simp only [okStore, Bool.and_eq_true, Bool.not_eq_true'] at hok
          exact ih (h.insert e v hok.1) hok.2
      | rem e =>
          simp only [okStore, Bool.and_eq_true] at hok
          obtain ⟨d0, hd0⟩ := Option.isSome_iff_exists.mp hok.1
          exact ih (h.remove hd0) hok.2


/-!
Entity-table and registry-level helper lemmas.
-/

theorem Entity.get_index_lt (e : Entity) : e.get_index < U32 :=
  Nat.mod_lt _ (by norm_num [U32])

theorem Entity.make_mod_left (i g : Nat) :
    Entity.make (i % U32) g = Entity.make i g := by
  simp only [Entity.make, U32]
  congr 1
  omega

theorem Entity.make_small_valid {i : Nat} (g : Nat)
    (hi : i < INVALID_INDEX) : (Entity.make i g).is_valid = true := by
  rw [Entity.is_valid_make_iff]
  have hiu : i % U32 = i :=
    Nat.mod_eq_of_lt (by simp only [U32, INVALID_INDEX] at *; omega)
  rw [hiu]
  omega

theorem Entity.make_invalid_not_valid (g : Nat) :
    (Entity.make INVALID_INDEX g).is_valid = false := by
  simp only [Entity.is_valid, Entity.get_index_make]
  have : INVALID_INDEX % U32 = INVALID_INDEX := by
    simp only [U32, INVALID_INDEX]
  rw [this]
  simp

theorem ECSA.active_iff {s : ECSA} {e : Entity} :
    s.is_entity_handle_active e = true ↔
      e.is_valid = true ∧ s.ents.get_id e.get_index = e := by
  simp [ECSA.is_entity_handle_active]

theorem InvA.active_lt {s : ECSA} (h : InvA s) {e : Entity}
    (ha : s.is_entity_handle_active e = true) :
    e.get_index < s.ents.count := by
  rw [ECSA.active_iff] at ha
  by_contra hge
  have hinit := h.high_free e.get_index (by omega)
  have : s.ents.get_id e.get_index = Entity.Invalid := by
    rw [EntityArray.get_id, hinit]
    rfl
  rw [this] at ha
  have hv := ha.1
  rw [← ha.2] at hv
  rw [Entity.Invalid_is_valid] at hv
  cases hv

theorem ECSA.active_slot {s : ECSA} {e : Entity}
    (ha : s.is_entity_handle_active e = true) :
    (s.ents.entities e.get_index).id = e :=
  (ECSA.active_iff.mp ha).2

theorem EntityArray.create_pop {a : EntityArray} {i : Nat} {rest : List Nat}
    (hfree : a.free = i :: rest) (hiU : i < U32) :
    a.create_entity =
      ({ a with
          entities := updFn a.entities i
            ⟨Entity.make i (a.entities i).id.get_generation, ∅⟩,
          free := rest },
        Entity.make i (a.entities i).id.get_generation) := by
  rw [EntityArray.create_entity, hfree]
  simp [Entity.get_index_make, Nat.mod_eq_of_lt hiU]

theorem EntityArray.create_fresh {a : EntityArray} (hfree : a.free = [])
    (hcU : a.count < U32) :
    a.create_entity =
      ({ a with
          entities := updFn a.entities a.count ⟨Entity.make a.count 0, ∅⟩,
          count := a.count + 1 },
        Entity.make a.count 0) := by
  rw [EntityArray.create_entity, hfree]
  simp [Entity.get_index_make, Nat.mod_eq_of_lt hcU, Entity.make_mod_left,
    Nat.mod_mod_of_dvd]

theorem ECSA.create_fst (s : ECSA) :
    (s.create_entity).1 = { s with ents := (s.ents.create_entity).1 } := rfl

theorem ECSA.create_snd (s : ECSA) :
    (s.create_entity).2 = (s.ents.create_entity).2 := rfl

theorem ECSA.remove_entity_of_active {s : ECSA} {e : Entity}
    (ha : s.is_entity_handle_active e = true) :
    s.remove_entity e =
      { ents := s.ents.remove_entity e,
        stores := fun c =>
          match s.stores c with
          | some st => some (st.on_entity_removed e.get_index)
          | none => none } := by
  rw [ECSA.remove_entity, if_pos ha]

theorem ECSA.remove_entity_of_inactive {s : ECSA} {e : Entity}
    (ha : s.is_entity_handle_active e = false) :
    s.remove_entity e = s := by
  rw [ECSA.remove_entity, if_neg (by simp [ha])]


theorem InvA.count_lt_U32 {s : ECSA} (h : InvA s) : s.ents.count < U32 := by
  have := h.count_le
  simp only [MAX_ENTITIES, U32] at *
  omega

theorem InvA.create {s : ECSA} (h : InvA s)
    (hok : stepOKA s Op.create = true) : InvA (s.create_entity).1 := by
  rw [ECSA.create_fst]
  cases hfree : s.ents.free with
  | cons i rest =>
      have hi_mem : i ∈ s.ents.free := by
        rw [hfree]; exact List.mem_cons_self i rest
      have hi_lt : i < s.ents.count := h.free_lt i hi_mem
      have hi_dead : (s.ents.entities i).id.is_valid = false :=
        h.free_dead i hi_mem
      have hiU : i < U32 := lt_trans hi_lt h.count_lt_U32
      have hi_inv : i < INVALID_INDEX := by
        have := h.count_le
        simp only [MAX_ENTITIES, INVALID_INDEX] at *
        omega
      rw [EntityArray.create_pop hfree hiU]
      have hnodup := h.free_nodup
      rw [hfree, List.nodup_cons] at hnodup
      constructor <;> dsimp only
      · intro c j
        by_cases hj : j = i
        · subst hj
          simp only [updFn_same]
          constructor
          · intro hc
            exact absurd hc (Finset.not_mem_empty c)
          · intro hex
            have hmem := (h.mask_store c j).mpr hex
            rw [h.dead_mask j hi_dead] at hmem
            exact absurd hmem (Finset.not_mem_empty c)
        · rw [updFn_ne _ _ _ _ hj]
          exact h.mask_store c j
      · intro j _hdead
        by_cases hj : j = i
        · subst hj
          simp [updFn_same]
        · rw [updFn_ne _ _ _ _ hj] at _hdead ⊢
          exact h.dead_mask j _hdead
      · intro j hvalid
        by_cases hj : j = i
        · subst hj
          simp only [updFn_same, Entity.get_index_make]
          exact Nat.mod_eq_of_lt hiU
        · rw [updFn_ne _ _ _ _ hj] at hvalid ⊢
          exact h.live_index j hvalid
      · intro j hge
        have hj : j ≠ i := by omega
        rw [updFn_ne _ _ _ _ hj]
        exact h.high_free j hge
      · exact h.store_inv
      · exact h.store_lt
      · intro j hjmem
        have hj : j ≠ i := by
          intro hcon
          subst hcon
          exact hnodup.1 hjmem
        rw [updFn_ne _ _ _ _ hj]
        exact h.free_dead j (by rw [hfree]; exact List.mem_cons_of_mem _ hjmem)
      · intro j hjmem
        exact h.free_lt j (by rw [hfree]; exact List.mem_cons_of_mem _ hjmem)
      · exact hnodup.2
      · exact h.count_le
  | nil =>
      have hcnt : s.ents.count < MAX_ENTITIES := by
        simp only [stepOKA, hfree] at hok
        simpa using hok
      have hcU : s.ents.count < U32 := h.count_lt_U32
      have hc_inv : s.ents.count < INVALID_INDEX := by
        simp only [MAX_ENTITIES, INVALID_INDEX] at *
        omega
      rw [EntityArray.create_fresh hfree hcU]
      constructor <;> dsimp only
      · intro c j
        by_cases hj : j = s.ents.count
        · subst hj
          simp only [updFn_same]
          constructor
          · intro hc
            exact absurd hc (Finset.not_mem_empty c)
          · intro hex
            obtain ⟨st, hst, hhas⟩ := hex
            have hlt := h.store_lt c st s.ents.count hst hhas
            exact absurd hlt (lt_irrefl _)
        · rw [updFn_ne _ _ _ _ hj]
          exact h.mask_store c j
      · intro j _hdead
        by_cases hj : j = s.ents.count
        · subst hj
          simp [updFn_same]
        · rw [updFn_ne _ _ _ _ hj] at _hdead ⊢
          exact h.dead_mask j _hdead
      · intro j hvalid
        by_cases hj : j = s.ents.count
        · subst hj
          simp only [updFn_same, Entity.get_index_make]
          exact Nat.mod_eq_of_lt hcU
        · rw [updFn_ne _ _ _ _ hj] at hvalid ⊢
          exact h.live_index j hvalid
      · intro j hge
        have hj : j ≠ s.ents.count := by omega
        rw [updFn_ne _ _ _ _ hj]
        exact h.high_free j (by omega)
      · exact h.store_inv
      · intro c st e hst hhas
        have := h.store_lt c st e hst hhas
        omega
      · intro j hjmem
        rw [hfree] at hjmem
        cases hjmem
      · intro j hjmem
        rw [hfree] at hjmem
        cases hjmem
      · rw [hfree]
        exact List.nodup_nil
      · omega


theorem InvA.removeEnt {s : ECSA} (h : InvA s) (e : Entity) :
    InvA (s.remove_entity e) := by
  by_cases ha : s.is_entity_handle_active e = true
  · rw [ECSA.remove_entity_of_active ha]
    have hlt : e.get_index < s.ents.count := h.active_lt ha
    have hslot : (s.ents.entities e.get_index).id = e := ECSA.active_slot ha
    have hvalid : (s.ents.entities e.get_index).id.is_valid = true := by
      rw [hslot]; exact (ECSA.active_iff.mp ha).1
    constructor <;> dsimp only [EntityArray.remove_entity]
    · intro c j
      by_cases hj : j = e.get_index
      · subst hj
        simp only [updFn_same]
        constructor
        · intro hc
          exact absurd hc (Finset.not_mem_empty c)
        · intro hex
          obtain ⟨st', hst', hhas⟩ := hex
          cases hc : s.stores c with
          | some st =>
              rw [hc] at hst'
              simp only at hst'
              cases hst'
              rw [StoreA.has_data_on_entity_removed (h.store_inv c st hc)]
                at hhas
              simp at hhas
          | none =>
              rw [hc] at hst'
              cases hst'
      · rw [updFn_ne _ _ _ _ hj]
        rw [h.mask_store c j]
        cases hc : s.stores c with
        | some st =>
            simp only [hc, Option.some.injEq]
            constructor
            · intro hex
              obtain ⟨st', hst', hhas⟩ := hex
              cases hst'
              refine ⟨st.on_entity_removed e.get_index, rfl, ?_⟩
              rw [StoreA.has_data_on_entity_removed (h.store_inv c st hc)]
              simp [hj, hhas]
            · intro hex
              obtain ⟨st', hst', hhas⟩ := hex
              rw [← hst'] at hhas
              rw [StoreA.has_data_on_entity_removed (h.store_inv c st hc)]
                at hhas
              simp only [hj, if_false] at hhas
              exact ⟨st, rfl, hhas⟩
        | none =>
            simp [hc]
    · intro j _hdead
      by_cases hj : j = e.get_index
      · subst hj
        simp [updFn_same]
      · rw [updFn_ne _ _ _ _ hj] at _hdead ⊢
        exact h.dead_mask j _hdead
    · intro j hvalid2
      by_cases hj : j = e.get_index
      · subst hj
        rw [updFn_same] at hvalid2
        simp only at hvalid2
        rw [Entity.make_invalid_not_valid] at hvalid2
        cases hvalid2
      · rw [updFn_ne _ _ _ _ hj] at hvalid2 ⊢
        exact h.live_index j hvalid2
    · intro j hge
      have hj : j ≠ e.get_index := by omega
      rw [updFn_ne _ _ _ _ hj]
      exact h.high_free j hge
    · intro c st' hst'
      cases hc : s.stores c with
      | some st =>
          rw [hc] at hst'
          simp only at hst'
          cases hst'
          exact StoreA.on_entity_removed_sinv (h.store_inv c st hc) _
      | none =>
          rw [hc] at hst'
          cases hst'
    · intro c st' e' hst' hhas
      cases hc : s.stores c with
      | some st =>
          rw [hc] at hst'
          simp only at hst'
          cases hst'
          rw [StoreA.has_data_on_entity_removed (h.store_inv c st hc)] at hhas
          by_cases he' : e' = e.get_index
          · simp [he'] at hhas
          · simp only [he', if_false] at hhas
            exact h.store_lt c st e' hc hhas
      | none =>
          rw [hc] at hst'
          cases hst'
    · intro j hjmem
      rcases List.mem_cons.mp hjmem with hje | hjold
      · subst hje
        simp only [updFn_same]
        exact Entity.make_invalid_not_valid _
      · have hj : j ≠ e.get_index := by
          intro hcon
          have hd := h.free_dead j hjold
          rw [hcon, hvalid] at hd
          cases hd
        rw [updFn_ne _ _ _ _ hj]
        exact h.free_dead j hjold
    · intro j hjmem
      rcases List.mem_cons.mp hjmem with hje | hjold
      · subst hje
        exact hlt
      · exact h.free_lt j hjold
    · rw [List.nodup_cons]
      refine ⟨?_, h.free_nodup⟩
      intro hmem
      have := h.free_dead _ hmem
      rw [hvalid] at this
      cases this
    · exact h.count_le
  · have ha2 : s.is_entity_handle_active e = false := by
      simpa using ha
    rw [ECSA.remove_entity_of_inactive ha2]
    exact h


theorem ECSA.get_component_array_some {s : ECSA} {c : Fin 32} {st : StoreA}
    (hst : s.stores c = some st) : s.get_component_array c = st := by
  simp [ECSA.get_component_array, hst]

theorem ECSA.get_component_array_none {s : ECSA} {c : Fin 32}
    (hst : s.stores c = none) : s.get_component_array c = StoreA.empty := by
  simp [ECSA.get_component_array, hst]

theorem ECSA.addComp_fail {s : ECSA} {c : Fin 32} {e : Entity}
    (hg : ¬ s.is_entity_handle_active e ∨
      c ∈ s.ents.get_component_mask e.get_index) :
    s.add_component_to_entity c e = (s, false) := by
  simp only [ECSA.add_component_to_entity]
  rw [if_pos hg]

theorem ECSA.addComp_success {s : ECSA} {c : Fin 32} {e : Entity}
    (hact : s.is_entity_handle_active e = true)
    (hmask : c ∉ s.ents.get_component_mask e.get_index) :
    s.add_component_to_entity c e =
      ({ ents := { s.ents with
            entities := updFn s.ents.entities e.get_index
              ⟨(s.ents.entities e.get_index).id,
                insert c (s.ents.entities e.get_index).mask⟩ },
          stores := updC s.stores c
            (some ((s.get_component_array c).insert_data_default_initialized
              e.get_index)) },
        true) := by
  simp only [ECSA.add_component_to_entity]
  rw [if_neg (by simp [hact, hmask])]

theorem ECSA.removeComp_fail {s : ECSA} {c : Fin 32} {e : Entity}
    (hg : ¬ s.is_entity_handle_active e ∨
      c ∉ s.ents.get_component_mask e.get_index) :
    s.remove_component_from_entity c e = (s, false) := by
  simp only [ECSA.remove_component_from_entity]
  rw [if_pos hg]

theorem ECSA.removeComp_success {s : ECSA} {c : Fin 32} {e : Entity}
    (hact : s.is_entity_handle_active e = true)
    (hmask : c ∈ s.ents.get_component_mask e.get_index) :
    s.remove_component_from_entity c e =
      ({ ents := { s.ents with
            entities := updFn s.ents.entities e.get_index
              ⟨(s.ents.entities e.get_index).id,
                ((s.ents.entities e.get_index).mask).erase c⟩ },
          stores := updC s.stores c
            (some ((s.get_component_array c).remove_data e.get_index)) },
        true) := by
  simp only [ECSA.remove_component_from_entity]
  rw [if_neg (by simp [hact, hmask])]

theorem InvA.store_not_holding {s : ECSA} (h : InvA s) {c : Fin 32}
    {e : Entity} (hmask : c ∉ s.ents.get_component_mask e.get_index) :
    (s.get_component_array c).has_data e.get_index = false := by
  cases hc : s.stores c with
  | some st =>
      rw [ECSA.get_component_array_some hc]
      by_contra hcon
      have hhas : st.has_data e.get_index = true := by
        simpa using hcon
      exact hmask ((h.mask_store c e.get_index).mpr ⟨st, hc, hhas⟩)
  | none =>
      rw [ECSA.get_component_array_none hc]
      rfl

theorem InvA.store_sinv {s : ECSA} (h : InvA s) (c : Fin 32) :
    SInvA (s.get_component_array c) := by
  cases hc : s.stores c with
  | some st =>
      rw [ECSA.get_component_array_some hc]
      exact h.store_inv c st hc
  | none =>
      rw [ECSA.get_component_array_none hc]
      exact SInvA.empty

theorem InvA.addComp {s : ECSA} (h : InvA s) (c : Fin 32) (e : Entity) :
    InvA (s.add_component_to_entity c e).1 := by
  by_cases hg : ¬ s.is_entity_handle_active e ∨
      c ∈ s.ents.get_component_mask e.get_index
  · rw [ECSA.addComp_fail hg]
    exact h
  · push_neg at hg
    obtain ⟨hact0, hmask⟩ := hg
    have hact : s.is_entity_handle_active e = true := by
      simpa using hact0
    rw [ECSA.addComp_success hact hmask]
    have hlt : e.get_index < s.ents.count := h.active_lt hact
    have hslot : (s.ents.entities e.get_index).id = e := ECSA.active_slot hact
    have hvalid : (s.ents.entities e.get_index).id.is_valid = true := by
      rw [hslot]; exact (ECSA.active_iff.mp hact).1
    have hnot : (s.get_component_array c).has_data e.get_index = false :=
      h.store_not_holding hmask
    have hsinv : SInvA (s.get_component_array c) := h.store_sinv c
    constructor <;> dsimp only
    · intro c' j
      rw [StoreA.insert_default_eq]
      by_cases hc' : c' = c
      · subst hc'
        rw [updC_same]
        by_cases hj : j = e.get_index
        · subst hj
          simp only [updFn_same]
          constructor
          · intro _hc
            refine ⟨_, rfl, ?_⟩
            rw [StoreA.has_data_insert]
            simp
          · intro _hex
            exact Finset.mem_insert_self c' _
        · rw [updFn_ne _ _ _ _ hj]
          have hbase := h.mask_store c' j
          constructor
          · intro hcm
            obtain ⟨st0, hst0, hhas0⟩ := hbase.mp hcm
            refine ⟨_, rfl, ?_⟩
            rw [StoreA.has_data_insert]
            rw [if_neg hj]
            rw [ECSA.get_component_array_some hst0]
            exact hhas0
          · intro hex
            obtain ⟨st', hst', hhas'⟩ := hex
            cases hst'
            rw [StoreA.has_data_insert, if_neg hj] at hhas'
            apply hbase.mpr
            cases hc : s.stores c' with
            | some st0 =>
                rw [ECSA.get_component_array_some hc] at hhas'
                exact ⟨st0, rfl, hhas'⟩
            | none =>
                rw [ECSA.get_component_array_none hc] at hhas'
                cases hhas'
      · rw [updC_ne _ _ _ _ hc']
        have hbase := h.mask_store c' j
        by_cases hj : j = e.get_index
        · subst hj
          simp only [updFn_same]
          rw [Finset.mem_insert]
          constructor
          · intro hcm
            rcases hcm with hcc | hcm
            · exact absurd hcc hc'
            · exact hbase.mp hcm
          · intro hex
            exact Or.inr (hbase.mpr hex)
        · rw [updFn_ne _ _ _ _ hj]
          exact hbase
    · intro j _hdead
      by_cases hj : j = e.get_index
      · rw [hj] at _hdead
        simp only [updFn_same] at _hdead
        rw [hvalid] at _hdead
        cases _hdead
      · rw [updFn_ne _ _ _ _ hj] at _hdead ⊢
        exact h.dead_mask j _hdead
    · intro j hvalid2
      by_cases hj : j = e.get_index
      · rw [hj] at hvalid2 ⊢
        simp only [updFn_same] at hvalid2 ⊢
        exact h.live_index e.get_index (by simpa using hvalid2)
      · rw [updFn_ne _ _ _ _ hj] at hvalid2 ⊢
        exact h.live_index j hvalid2
    · intro j hge
      have hj : j ≠ e.get_index := by omega
      rw [updFn_ne _ _ _ _ hj]
      exact h.high_free j hge
    · intro c' st' hst'
      by_cases hc' : c' = c
      · subst hc'
        rw [updC_same] at hst'
        cases hst'
        rw [StoreA.insert_default_eq]
        exact hsinv.insert _ _ hnot
      · rw [updC_ne _ _ _ _ hc'] at hst'
        exact h.store_inv c' st' hst'
    · intro c' st' e' hst' hhas
      by_cases hc' : c' = c
      · subst hc'
        rw [updC_same] at hst'
        cases hst'
        rw [StoreA.insert_default_eq, StoreA.has_data_insert] at hhas
        by_cases he' : e' = e.get_index
        · rw [he']
          exact hlt
        · rw [if_neg he'] at hhas
          cases hc : s.stores c' with
          | some st0 =>
              rw [ECSA.get_component_array_some hc] at hhas
              exact h.store_lt c' st0 e' hc hhas
          | none =>
              rw [ECSA.get_component_array_none hc] at hhas
              cases hhas
      · rw [updC_ne _ _ _ _ hc'] at hst'
        exact h.store_lt c' st' e' hst' hhas
    · intro j hjmem
      have hj : j ≠ e.get_index := by
        intro hcon
        have hd := h.free_dead j hjmem
        rw [hcon, hvalid] at hd
        cases hd
      rw [updFn_ne _ _ _ _ hj]
      exact h.free_dead j hjmem
    · exact h.free_lt
    · exact h.free_nodup
    · exact h.count_le


theorem InvA.removeComp {s : ECSA} (h : InvA s) (c : Fin 32) (e : Entity) :
    InvA (s.remove_component_from_entity c e).1 := by
  by_cases hg : ¬ s.is_entity_handle_active e ∨
      c ∉ s.ents.get_component_mask e.get_index
  · rw [ECSA.removeComp_fail hg]
    exact h
  · push_neg at hg
    obtain ⟨hact0, hmask⟩ := hg
    have hact : s.is_entity_handle_active e = true := by
      simpa using hact0
    rw [ECSA.removeComp_success hact hmask]
    have hlt : e.get_index < s.ents.count := h.active_lt hact
    have hslot : (s.ents.entities e.get_index).id = e := ECSA.active_slot hact
    have hvalid : (s.ents.entities e.get_index).id.is_valid = true := by
      rw [hslot]; exact (ECSA.active_iff.mp hact).1
    obtain ⟨st, hst, hhasidx⟩ := (h.mask_store c e.get_index).mp hmask
    have hga : s.get_component_array c = st := ECSA.get_component_array_some hst
    have hsinv : SInvA st := h.store_inv c st hst
    obtain ⟨d0, hd0⟩ := Option.isSome_iff_exists.mp hhasidx
    have hrem : ∀ e2, (st.remove_data e.get_index).has_data e2 =
        if e2 = e.get_index then false else st.has_data e2 :=
      StoreA.has_data_remove hsinv hd0
    constructor <;> dsimp only
    · intro c' j
      by_cases hc' : c' = c
      · subst hc'
        rw [updC_same, hga]
        by_cases hj : j = e.get_index
        · subst hj
          simp only [updFn_same]
          constructor
          · intro hcm
            exact absurd hcm (by simp [Finset.mem_erase])
          · intro hex
            obtain ⟨st', hst', hhas'⟩ := hex
            cases hst'
            rw [hrem] at hhas'
            simp at hhas'
        · rw [updFn_ne _ _ _ _ hj]
          have hbase := h.mask_store c' j
          constructor
          · intro hcm
            obtain ⟨st0, hst0, hhas0⟩ := hbase.mp hcm
            rw [hst0] at hst
            cases hst
            refine ⟨_, rfl, ?_⟩
            rw [hrem, if_neg hj]
            exact hhas0
          · intro hex
            obtain ⟨st', hst', hhas'⟩ := hex
            cases hst'
            rw [hrem, if_neg hj] at hhas'
            exact hbase.mpr ⟨st, hst, hhas'⟩
      · rw [updC_ne _ _ _ _ hc']
        have hbase := h.mask_store c' j
        by_cases hj : j = e.get_index
        · subst hj
          simp only [updFn_same]
          rw [Finset.mem_erase]
          constructor
          · intro hcm
            exact hbase.mp hcm.2
          · intro hex
            exact ⟨hc', hbase.mpr hex⟩
        · rw [updFn_ne _ _ _ _ hj]
          exact hbase
    · intro j _hdead
      by_cases hj : j = e.get_index
      · rw [hj] at _hdead
        simp only [updFn_same] at _hdead
        rw [hvalid] at _hdead
        cases _hdead
      · rw [updFn_ne _ _ _ _ hj] at _hdead ⊢
        exact h.dead_mask j _hdead
    · intro j hvalid2
      by_cases hj : j = e.get_index
      · rw [hj] at hvalid2 ⊢
        simp only [updFn_same] at hvalid2 ⊢
        exact h.live_index e.get_index (by simpa using hvalid2)
      · rw [updFn_ne _ _ _ _ hj] at hvalid2 ⊢
        exact h.live_index j hvalid2
    · intro j hge
      have hj : j ≠ e.get_index := by omega
      rw [updFn_ne _ _ _ _ hj]
      exact h.high_free j hge
    · intro c' st' hst'
      by_cases hc' : c' = c
      · subst hc'
        rw [updC_same] at hst'
        cases hst'
        rw [hga]
        exact hsinv.remove hd0
      · rw [updC_ne _ _ _ _ hc'] at hst'
        exact h.store_inv c' st' hst'
    · intro c' st' e' hst' hhas
      by_cases hc' : c' = c
      · subst hc'
        rw [updC_same] at hst'
        cases hst'
        rw [hga, hrem] at hhas
        by_cases he' : e' = e.get_index
        · rw [he']
          exact hlt
        · rw [if_neg he'] at hhas
          exact h.store_lt c' st e' hst hhas
      · rw [updC_ne _ _ _ _ hc'] at hst'
        exact h.store_lt c' st' e' hst' hhas
    · intro j hjmem
      have hj : j ≠ e.get_index := by
        intro hcon
        have hd := h.free_dead j hjmem
        rw [hcon, hvalid] at hd
        cases hd
      rw [updFn_ne _ _ _ _ hj]
      exact h.free_dead j hjmem
    · exact h.free_lt
    · exact h.free_nodup
    · exact h.count_le

theorem InvA.init : InvA ECSA.init := by
  constructor <;>
    simp [ECSA.init, EntityArray.init, EntitySlot.init, MAX_ENTITIES,
      Entity.Invalid_is_valid]

theorem InvA.step {s : ECSA} (h : InvA s) {op : Op}
    (hok : stepOKA s op = true) : InvA (stepA s op).1 := by
  cases op with
  | create => exact h.create hok
  | remove e => exact h.removeEnt e
  | addComp c e => exact h.addComp c e
  | removeComp c e => exact h.removeComp c e
  | hasComp c e => exact h
  | getComp c e => exact h
  | iterate cs => exact h

theorem InvA.run {s : ECSA} (h : InvA s) (ops : List Op)
    (hsafe : safeA s ops = true) : InvA (runA s ops) := by
  induction ops generalizing s with
  | nil => exact h
  | cons op rest ih =>
      rw [safeA, Bool.and_eq_true] at hsafe
      exact ih (h.step hsafe.1) hsafe.2


/-!
Iterator characterization.
-/

theorem maskMatch_iff {req m : Mask} : maskMatch req m = true ↔ req ⊆ m := by
  rw [maskMatch, decide_eq_true_iff]
  constructor
  · intro h
    rw [h]
    exact Finset.inter_subset_right
  · intro h
    exact (Finset.inter_eq_left.mpr h).symm

theorem maskMatch_eq_decide (req m : Mask) :
    maskMatch req m = decide (req ⊆ m) := by
  by_cases h : req ⊆ m
  · have h1 : maskMatch req m = true := maskMatch_iff.mpr h
    simp [h1, h]
  · have h1 : maskMatch req m = false := by
      by_contra hc
      exact h (maskMatch_iff.mp (by simpa using hc))
    simp [h1, h]

theorem validIndexA_eq_liveAndContains (s : ECSA) (req : Mask) (i : Nat) :
    validIndexA s req false i = liveAndContains s req i := by
  rw [validIndexA, liveAndContains, Bool.false_or, maskMatch_eq_decide]

theorem mem_iterMask_of_mem {cs : List (Fin 32)} {c : Fin 32} (h : c ∈ cs) :
    c ∈ iterMask cs := by
  have haux : ∀ (l : List (Fin 32)) (acc : Mask), c ∈ l ∨ c ∈ acc →
      c ∈ l.foldl (fun m x => insert x m) acc := by
    intro l
    induction l with
    | nil =>
        intro acc hm
        rcases hm with hm | hm
        · cases hm
        · exact hm
    | cons x xs ih =>
        intro acc hm
        rw [List.foldl_cons]
        apply ih
        rcases hm with hm | hm
        · rcases List.mem_cons.mp hm with hx | hxs
          · exact Or.inr (by rw [hx]; exact Finset.mem_insert_self x acc)
          · exact Or.inl hxs
        · exact Or.inr (Finset.mem_insert_of_mem hm)
  exact haux cs ∅ (Or.inl h)

theorem iterMask_ne_empty {cs : List (Fin 32)} (h : cs ≠ []) :
    iterMask cs ≠ ∅ := by
  cases cs with
  | nil => exact absurd rfl h
  | cons c rest =>
      intro hcon
      have := mem_iterMask_of_mem (List.mem_cons_self c rest)
      rw [hcon] at this
      exact absurd this (Finset.not_mem_empty c)

theorem beginCond_eq_liveAndContains {s : ECSA} {req : Mask}
    (hreq : req ≠ ∅)
    (hdead : ∀ i, i < s.get_entity_count →
      (s.get_entity_from_index i).is_valid = false →
      s.get_component_mask_from_index i = ∅)
    {i : Nat} (hi : i < s.get_entity_count) :
    maskMatch req (s.get_component_mask_from_index i) =
      liveAndContains s req i := by
  by_cases hm : maskMatch req (s.get_component_mask_from_index i) = true
  · have hsub : req ⊆ s.get_component_mask_from_index i := maskMatch_iff.mp hm
    have hlive : (s.get_entity_from_index i).is_valid = true := by
      by_contra hcon
      have hfalse : (s.get_entity_from_index i).is_valid = false := by
        simpa using hcon
      have hempty := hdead i hi hfalse
      rw [hempty, Finset.subset_empty] at hsub
      exact hreq hsub
    rw [hm, liveAndContains, hlive]
    simp [hsub]
  · have hm2 : maskMatch req (s.get_component_mask_from_index i) = false := by
      simpa using hm
    have hnsub : ¬ req ⊆ s.get_component_mask_from_index i := by
      intro hsub
      rw [maskMatch_iff.mpr hsub] at hm2
      cases hm2
    rw [hm2, liveAndContains]
    simp [hnsub]

theorem beginScanA_spec (s : ECSA) (req : Mask) (fuel i : Nat)
    (hfuel : s.get_entity_count - i ≤ fuel) :
    i ≤ beginScanA s req fuel i ∧
    beginScanA s req fuel i ≤ max i s.get_entity_count ∧
    (∀ j, i ≤ j → j < beginScanA s req fuel i →
      maskMatch req (s.get_component_mask_from_index j) = false) ∧
    (beginScanA s req fuel i < s.get_entity_count →
      maskMatch req
        (s.get_component_mask_from_index (beginScanA s req fuel i)) = true) := by
  induction fuel generalizing i with
  | zero =>
      rw [beginScanA]
      refine ⟨le_refl i, le_max_left _ _, ?_, ?_⟩
      · intro j h1 h2
        omega
      · intro hlt
        omega
  | succ fuel ih =>
      rw [beginScanA]
      by_cases hcond : i < s.get_entity_count ∧
          ¬ maskMatch req (s.get_component_mask_from_index i) = true
      · rw [if_pos hcond]
        have ih2 := ih (i + 1) (by omega)
        refine ⟨by omega, ?_, ?_, ih2.2.2.2⟩
        · have := ih2.2.1
          omega
        · intro j h1 h2
          by_cases hji : j = i
          · subst hji
            simpa using hcond.2
          · exact ih2.2.2.1 j (by omega) h2
      · rw [if_neg hcond]
        refine ⟨le_refl i, le_max_left _ _, ?_, ?_⟩
        · intro j h1 h2
          omega
        · intro hlt
          rcases not_and_or.mp hcond with hcon | hcon
          · exact absurd hlt hcon
          · simpa using hcon

theorem advScanA_spec (s : ECSA) (req : Mask) (all : Bool) (fuel i : Nat)
    (hfuel : s.get_entity_count - i ≤ fuel) :
    i ≤ advScanA s req all fuel i ∧
    advScanA s req all fuel i ≤ max i s.get_entity_count ∧
    (∀ j, i ≤ j → j < advScanA s req all fuel i →
      validIndexA s req all j = false) ∧
    (advScanA s req all fuel i < s.get_entity_count →
      validIndexA s req all (advScanA s req all fuel i) = true) := by
  induction fuel generalizing i with
  | zero =>
      rw [advScanA]
      refine ⟨le_refl i, le_max_left _ _, ?_, ?_⟩
      · intro j h1 h2
        omega
      · intro hlt
        omega
  | succ fuel ih =>
      rw [advScanA]
      by_cases hcond : i < s.get_entity_count ∧
          validIndexA s req all i = false
      · rw [if_pos hcond]
        have ih2 := ih (i + 1) (by omega)
        refine ⟨by omega, ?_, ?_, ih2.2.2.2⟩
        · have := ih2.2.1
          omega
        · intro j h1 h2
          by_cases hji : j = i
          · subst hji
            exact hcond.2
          · exact ih2.2.2.1 j (by omega) h2
      · rw [if_neg hcond]
        refine ⟨le_refl i, le_max_left _ _, ?_, ?_⟩
        · intro j h1 h2
          omega
        · intro hlt
          rcases not_and_or.mp hcond with hcon | hcon
          · exact absurd hlt hcon
          · simpa using hcon

theorem filter_range_skip (p : Nat → Bool) (cnt : Nat) :
    ∀ d a b, b - a ≤ d → a ≤ b → b ≤ cnt →
    (∀ j, a ≤ j → j < b → p j = false) →
    (List.range' a (cnt - a)).filter p =
      (List.range' b (cnt - b)).filter p := by
  intro d
  induction d with
  | zero =>
      intro a b h1 _h2 _h3 _h4
      have : a = b := by omega
      rw [this]
  | succ d ih =>
      intro a b h1 h2 hb hskip
      by_cases hab : a = b
      · rw [hab]
      · have ha : a < b := by omega
        have hsplit : cnt - a = (cnt - (a + 1)) + 1 := by omega
        rw [hsplit, List.range'_succ, List.filter_cons,
          hskip a (le_refl a) ha]
        simp only [Bool.false_eq_true, if_false]
        exact ih (a + 1) b (by omega) (by omega) hb
          (fun j hj1 hj2 => hskip j (by omega) hj2)

theorem collectA_eq (s : ECSA) (req : Mask) (fuel : Nat) :
    ∀ i, s.get_entity_count - i ≤ fuel → i ≤ s.get_entity_count →
    (i < s.get_entity_count → liveAndContains s req i = true) →
    collectA s req false fuel i =
      ((List.range' i (s.get_entity_count - i)).filter
        (liveAndContains s req)).map s.get_entity_from_index := by
  induction fuel with
  | zero =>
      intro i hfuel hi _hp
      have hieq : i = s.get_entity_count := by omega
      rw [hieq]
      simp [collectA, Nat.sub_self]
  | succ fuel ih =>
      intro i hfuel hi hp
      rw [collectA]
      by_cases hlt : i < s.get_entity_count
      · rw [if_pos hlt]
        have hpi := hp hlt
        have hsplit : s.get_entity_count - i =
            (s.get_entity_count - (i + 1)) + 1 := by omega
        rw [hsplit, List.range'_succ, List.filter_cons, if_pos hpi,
          List.map_cons]
        congr 1
        have hadv := advScanA_spec s req false
          (s.get_entity_count - (i + 1)) (i + 1) (le_refl _)
        have hge := hadv.1
        have hub := hadv.2.1
        have hupper :
            advScanA s req false (s.get_entity_count - (i + 1)) (i + 1) ≤
              s.get_entity_count := by omega
        have hp2 :
            advScanA s req false (s.get_entity_count - (i + 1)) (i + 1) <
              s.get_entity_count →
            liveAndContains s req
              (advScanA s req false (s.get_entity_count - (i + 1)) (i + 1))
              = true := by
          intro hlt2
          rw [← validIndexA_eq_liveAndContains]
          exact hadv.2.2.2 hlt2
        have hrw := ih (advScanA s req false (s.get_entity_count - (i + 1))
          (i + 1)) (by omega) hupper hp2
        rw [incrementA, hrw]
        congr 1
        refine (filter_range_skip (liveAndContains s req) s.get_entity_count
          (s.get_entity_count) (i + 1)
          (advScanA s req false (s.get_entity_count - (i + 1)) (i + 1))
          (by omega) hge hupper ?_).symm
        intro j hj1 hj2
        rw [← validIndexA_eq_liveAndContains]
        exact hadv.2.2.1 j hj1 hj2
      · rw [if_neg hlt]
        have hieq : i = s.get_entity_count := by omega
        rw [hieq]
        simp [Nat.sub_self]

theorem iterListA_eq_iterSpec {s : ECSA}
    (hdead : ∀ i, i < s.get_entity_count →
      (s.get_entity_from_index i).is_valid = false →
      s.get_component_mask_from_index i = ∅)
    {cs : List (Fin 32)} (hcs : cs ≠ []) :
    iterListA s cs = iterSpec s (iterMask cs) := by
  have hreq : iterMask cs ≠ ∅ := iterMask_ne_empty hcs
  have hall : cs.isEmpty = false := by
    cases cs with
    | nil => exact absurd rfl hcs
    | cons c rest => rfl
  rw [iterListA, hall]
  have hbeg := beginScanA_spec s (iterMask cs) s.get_entity_count 0
    (by omega)
  have hb0 := hbeg.1
  have hbub := hbeg.2.1
  have hbupper : beginScanA s (iterMask cs) s.get_entity_count 0 ≤
      s.get_entity_count := by omega
  have hpb : beginScanA s (iterMask cs) s.get_entity_count 0 <
      s.get_entity_count →
      liveAndContains s (iterMask cs)
        (beginScanA s (iterMask cs) s.get_entity_count 0) = true := by
    intro hlt
    rw [← beginCond_eq_liveAndContains hreq hdead hlt]
    exact hbeg.2.2.2 hlt
  rw [collectA_eq s (iterMask cs) s.get_entity_count _ (by omega)
    hbupper hpb]
  rw [iterSpec, List.range_eq_range']
  congr 1
  refine (filter_range_skip (liveAndContains s (iterMask cs))
    s.get_entity_count s.get_entity_count 0
    (beginScanA s (iterMask cs) s.get_entity_count 0)
    (by omega) (by omega) hbupper ?_).symm
  intro j hj1 hj2
  rw [← beginCond_eq_liveAndContains hreq hdead (by omega)]
  exact hbeg.2.2.1 j hj1 hj2

theorem InvA.dead_mask_iter {s : ECSA} (h : InvA s) :
    ∀ i, i < s.get_entity_count →
      (s.get_entity_from_index i).is_valid = false →
      s.get_component_mask_from_index i = ∅ := by
  intro i _hi hdead
  exact h.dead_mask i hdead


theorem iterSpec_nodup {s : ECSA} (h : InvA s) (req : Mask) :
    (iterSpec s req).Nodup := by
  rw [iterSpec]
  apply List.Nodup.map_on
  · intro x hx y hy hxy
    have hx2 := (List.mem_filter.mp hx).2
    have hy2 := (List.mem_filter.mp hy).2
    rw [liveAndContains, Bool.and_eq_true] at hx2 hy2
    have hgx := h.live_index x hx2.1
    have hgy := h.live_index y hy2.1
    have hxy2 : (s.ents.entities x).id = (s.ents.entities y).id := hxy
    rw [← hgx, ← hgy, hxy2]
  · exact (List.nodup_range _).filter _

/-!
Generation monotonicity: a removed handle never tests live again.
-/

theorem runA_append (s : ECSA) (l1 l2 : List Op) :
    runA s (l1 ++ l2) = runA (runA s l1) l2 := by
  induction l1 generalizing s with
  | nil => rfl
  | cons op rest ih =>
      rw [List.cons_append, runA, runA, ih]

theorem safeA_append (s : ECSA) (l1 l2 : List Op) :
    safeA s (l1 ++ l2) = (safeA s l1 && safeA (runA s l1) l2) := by
  induction l1 generalizing s with
  | nil => rfl
  | cons op rest ih =>
      rw [List.cons_append, safeA, safeA, ih, runA, Bool.and_assoc]

theorem gen_le_step {s : ECSA} {n : Nat}
    (hgen : ∀ i, (s.ents.entities i).id.get_generation ≤ n) (op : Op) :
    ∀ i, ((stepA s op).1.ents.entities i).id.get_generation ≤ n + 1 := by
  intro i
  cases op with
  | create =>
      show (((s.create_entity).1).ents.entities i).id.get_generation ≤ n + 1
      rw [ECSA.create_fst]
      cases hfree : s.ents.free with
      | cons i0 rest =>
          have hent : (s.ents.create_entity).1.entities =
              updFn s.ents.entities
                (Entity.make i0 (s.ents.entities i0).id.get_generation).get_index
                ⟨Entity.make i0 (s.ents.entities i0).id.get_generation, ∅⟩ := by
            rw [EntityArray.create_entity, hfree]
          show ((s.ents.create_entity).1.entities i).id.get_generation ≤ n + 1
          rw [hent]
          by_cases hi : i =
              (Entity.make i0 (s.ents.entities i0).id.get_generation).get_index
          · rw [hi, updFn_same]
            simp only [Entity.get_generation_make]
            have h1 := hgen i0
            have h2 := Nat.mod_le ((s.ents.entities i0).id.get_generation) U32
            omega
          · rw [updFn_ne _ _ _ _ hi]
            exact le_trans (hgen i) (by omega)
      | nil =>
          have hent : (s.ents.create_entity).1.entities =
              updFn s.ents.entities
                (Entity.make (s.ents.count % U32) 0).get_index
                ⟨Entity.make (s.ents.count % U32) 0, ∅⟩ := by
            rw [EntityArray.create_entity, hfree]
          show ((s.ents.create_entity).1.entities i).id.get_generation ≤ n + 1
          rw [hent]
          by_cases hi : i = (Entity.make (s.ents.count % U32) 0).get_index
          · rw [hi, updFn_same]
            simp [Entity.get_generation_make]
          · rw [updFn_ne _ _ _ _ hi]
            exact le_trans (hgen i) (by omega)
  | remove e =>
      show ((s.remove_entity e).ents.entities i).id.get_generation ≤ n + 1
      by_cases ha : s.is_entity_handle_active e = true
      · rw [ECSA.remove_entity_of_active ha]
        dsimp only [EntityArray.remove_entity]
        by_cases hi : i = e.get_index
        · rw [hi, updFn_same]
          simp only [Entity.get_generation_make]
          have hslot : (s.ents.entities e.get_index).id = e :=
            ECSA.active_slot ha
          have hle : e.get_generation ≤ n := by
            have := hgen e.get_index
            rw [hslot] at this
            exact this
          have h2 := Nat.mod_le (e.get_generation + 1) U32
          omega
        · rw [updFn_ne _ _ _ _ hi]
          exact le_trans (hgen i) (by omega)
      · rw [ECSA.remove_entity_of_inactive (by simpa using ha)]
        exact le_trans (hgen i) (by omega)
  | addComp c e =>
      show (((s.add_component_to_entity c e).1).ents.entities i).id.get_generation
        ≤ n + 1
      by_cases hg : ¬ s.is_entity_handle_active e ∨
          c ∈ s.ents.get_component_mask e.get_index
      · rw [ECSA.addComp_fail hg]
        exact le_trans (hgen i) (by omega)
      · push_neg at hg
        rw [ECSA.addComp_success (by simpa using hg.1) hg.2]
        dsimp only
        by_cases hi : i = e.get_index
        · rw [hi, updFn_same]
          exact le_trans (hgen e.get_index) (by omega)
        · rw [updFn_ne _ _ _ _ hi]
          exact le_trans (hgen i) (by omega)
  | removeComp c e =>
      show (((s.remove_component_from_entity c e).1).ents.entities i).id.get_generation
        ≤ n + 1
      by_cases hg : ¬ s.is_entity_handle_active e ∨
          c ∉ s.ents.get_component_mask e.get_index
      · rw [ECSA.removeComp_fail hg]
        exact le_trans (hgen i) (by omega)
      · push_neg at hg
        rw [ECSA.removeComp_success (by simpa using hg.1) hg.2]
        dsimp only
        by_cases hi : i = e.get_index
        · rw [hi, updFn_same]
          exact le_trans (hgen e.get_index) (by omega)
        · rw [updFn_ne _ _ _ _ hi]
          exact le_trans (hgen i) (by omega)
  | hasComp c e => exact le_trans (hgen i) (by omega)
  | getComp c e => exact le_trans (hgen i) (by omega)
  | iterate cs => exact le_trans (hgen i) (by omega)

theorem gen_le_run {s : ECSA} {n : Nat}
    (hgen : ∀ i, (s.ents.entities i).id.get_generation ≤ n)
    (ops : List Op) :
    ∀ i, ((runA s ops).ents.entities i).id.get_generation ≤
      n + ops.length := by
  induction ops generalizing s n with
  | nil =>
      intro i
      exact le_trans (hgen i) (by simp)
  | cons op rest ih =>
      intro i
      rw [runA]
      have := ih (gen_le_step hgen op) i
      simpa [List.length_cons, Nat.add_assoc, Nat.add_comm 1 rest.length]
        using this


theorem dead_gen_persist_step {s : ECSA} {e : Entity} {n : Nat}
    (hinv : InvA s)
    (hgen : ∀ i, (s.ents.entities i).id.get_generation ≤ n)
    (hn : n + 1 < U32)
    (hidx : e.get_index < s.ents.count)
    (hgt : e.get_generation <
      (s.ents.entities e.get_index).id.get_generation)
    {op : Op} (hok : stepOKA s op = true) :
    e.get_index < (stepA s op).1.ents.count ∧
    e.get_generation <
      ((stepA s op).1.ents.entities e.get_index).id.get_generation := by
  cases op with
  | create =>
      show e.get_index < ((s.create_entity).1).ents.count ∧
        e.get_generation <
          (((s.create_entity).1).ents.entities e.get_index).id.get_generation
      rw [ECSA.create_fst]
      cases hfree : s.ents.free with
      | cons i0 rest =>
          have hi0mem : i0 ∈ s.ents.free := by
            rw [hfree]; exact List.mem_cons_self i0 rest
          have hi0U : i0 < U32 :=
            lt_trans (hinv.free_lt i0 hi0mem) hinv.count_lt_U32
          rw [EntityArray.create_pop hfree hi0U]
          dsimp only
          refine ⟨hidx, ?_⟩
          by_cases hi : e.get_index = i0
          · rw [hi, updFn_same]
            simp only [Entity.get_generation_make]
            have hmod : (s.ents.entities i0).id.get_generation % U32 =
                (s.ents.entities i0).id.get_generation :=
              Nat.mod_eq_of_lt (by have := hgen i0; omega)
            rw [hmod, ← hi]
            rw [hi] at hgt
            rw [← hi] at hgt
            exact hgt
          · rw [updFn_ne _ _ _ _ hi]
            exact hgt
      | nil =>
          have hcU : s.ents.count < U32 := hinv.count_lt_U32
          rw [EntityArray.create_fresh hfree hcU]
          dsimp only
          refine ⟨by omega, ?_⟩
          have hne : e.get_index ≠ s.ents.count := by omega
          rw [updFn_ne _ _ _ _ hne]
          exact hgt
  | remove e2 =>
      show e.get_index < (s.remove_entity e2).ents.count ∧
        e.get_generation <
          ((s.remove_entity e2).ents.entities e.get_index).id.get_generation
      by_cases ha : s.is_entity_handle_active e2 = true
      · rw [ECSA.remove_entity_of_active ha]
        dsimp only [EntityArray.remove_entity]
        refine ⟨hidx, ?_⟩
        by_cases hi : e.get_index = e2.get_index
        · rw [hi, updFn_same]
          simp only [Entity.get_generation_make]
          have hslot : (s.ents.entities e2.get_index).id = e2 :=
            ECSA.active_slot ha
          have hg2 : e2.get_generation ≤ n := by
            have := hgen e2.get_index
            rw [hslot] at this
            exact this
          have hgt2 : e.get_generation < e2.get_generation := by
            rw [hi, hslot] at hgt
            exact hgt
          have hmod : (e2.get_generation + 1) % U32 =
              e2.get_generation + 1 := Nat.mod_eq_of_lt (by omega)
          omega
        · rw [updFn_ne _ _ _ _ hi]
          exact hgt
      · rw [ECSA.remove_entity_of_inactive (by simpa using ha)]
        exact ⟨hidx, hgt⟩
  | addComp c e2 =>
      show e.get_index < ((s.add_component_to_entity c e2).1).ents.count ∧
        e.get_generation <
          (((s.add_component_to_entity c e2).1).ents.entities
            e.get_index).id.get_generation
      by_cases hg : ¬ s.is_entity_handle_active e2 = true ∨
          c ∈ s.ents.get_component_mask e2.get_index
      · rw [ECSA.addComp_fail hg]
        exact ⟨hidx, hgt⟩
      · push_neg at hg
        rw [ECSA.addComp_success (by simpa using hg.1) hg.2]
        dsimp only
        refine ⟨hidx, ?_⟩
        by_cases hi : e.get_index = e2.get_index
        · rw [hi, updFn_same]
          rw [hi] at hgt
          exact hgt
        · rw [updFn_ne _ _ _ _ hi]
          exact hgt
  | removeComp c e2 =>
      show e.get_index <
          ((s.remove_component_from_entity c e2).1).ents.count ∧
        e.get_generation <
          (((s.remove_component_from_entity c e2).1).ents.entities
            e.get_index).id.get_generation
      by_cases hg : ¬ s.is_entity_handle_active e2 = true ∨
          c ∉ s.ents.get_component_mask e2.get_index
      · rw [ECSA.removeComp_fail hg]
        exact ⟨hidx, hgt⟩
      · push_neg at hg
        rw [ECSA.removeComp_success (by simpa using hg.1) hg.2]
        dsimp only
        refine ⟨hidx, ?_⟩
        by_cases hi : e.get_index = e2.get_index
        · rw [hi, updFn_same]
          rw [hi] at hgt
          exact hgt
        · rw [updFn_ne _ _ _ _ hi]
          exact hgt
  | hasComp c e2 => exact ⟨hidx, hgt⟩
  | getComp c e2 => exact ⟨hidx, hgt⟩
  | iterate cs => exact ⟨hidx, hgt⟩

theorem dead_gen_persist_run {e : Entity} (ops : List Op) :
    ∀ {s : ECSA} {n : Nat}, InvA s →
    (∀ i, (s.ents.entities i).id.get_generation ≤ n) →
    n + ops.length < U32 → safeA s ops = true →
    e.get_index < s.ents.count →
    e.get_generation < (s.ents.entities e.get_index).id.get_generation →
    e.get_generation <
      ((runA s ops).ents.entities e.get_index).id.get_generation := by
  induction ops with
  | nil =>
      intro s n _ _ _ _ _ hgt
      exact hgt
  | cons op rest ih =>
      intro s n hinv hgen hn hsafe hidx hgt
      rw [runA]
      rw [safeA, Bool.and_eq_true] at hsafe
      have hn1 : n + 1 < U32 := by
        simp only [List.length_cons] at hn
        omega
      have hstep := dead_gen_persist_step hinv hgen hn1 hidx hgt hsafe.1
      exact ih (hinv.step hsafe.1) (gen_le_step hgen op)
        (by simp only [List.length_cons] at hn; omega) hsafe.2
        hstep.1 hstep.2


/-!
Claim theorems.
-/

/-- C1: the spec demands an explicit, checked capacity failure when the
free stack is empty and the counter has reached `MAX_ENTITIES`; the code
has no such check.  Evaluating `create_entity` on any full entity table
allocates index `MAX_ENTITIES` — one past the last valid slot of the
`std::array` (an out-of-bounds write in C++) — increments the counter
past capacity, and returns a handle that is not `Entity::Invalid`, i.e.
no failure is surfaced. -/
theorem claimC1_create_at_capacity_allocates_out_of_bounds
    (a : EntityArray) (hfree : a.free = [])
    (hcount : a.count = MAX_ENTITIES) :
    (a.create_entity).2.get_index = MAX_ENTITIES ∧
    (a.create_entity).2 ≠ Entity.Invalid ∧
    (a.create_entity).1.count = MAX_ENTITIES + 1 := by
  have hcU : a.count < U32 := by
    rw [hcount]; norm_num [MAX_ENTITIES, U32]
  rw [EntityArray.create_fresh hfree hcU]
  refine ⟨?_, ?_, ?_⟩
  · dsimp only
    rw [Entity.get_index_make, hcount]
    norm_num [MAX_ENTITIES, U32]
  · dsimp only
    rw [hcount]
    intro hcon
    have := congrArg Entity.get_index hcon
    rw [Entity.get_index_make] at this
    rw [show Entity.Invalid.get_index = INVALID_INDEX from rfl] at this
    norm_num [MAX_ENTITIES, U32, INVALID_INDEX] at this
  · dsimp only
    rw [hcount]

/-- C1 witness: a concrete full table (all slots default, counter at
`MAX_ENTITIES`, empty free stack). -/
theorem claimC1_witness :
    (EntityArray.create_entity
      ⟨fun _ => EntitySlot.init, MAX_ENTITIES, []⟩).2.get_index =
        MAX_ENTITIES ∧
    (EntityArray.create_entity
      ⟨fun _ => EntitySlot.init, MAX_ENTITIES, []⟩).2 ≠ Entity.Invalid ∧
    (EntityArray.create_entity
      ⟨fun _ => EntitySlot.init, MAX_ENTITIES, []⟩).1.count =
        MAX_ENTITIES + 1 :=
  claimC1_create_at_capacity_allocates_out_of_bounds
    ⟨fun _ => EntitySlot.init, MAX_ENTITIES, []⟩ rfl rfl

/-- C2: the claim says the begin position is always a live slot; the
code's `begin` checks only the mask-superset condition, never liveness.
On the reachable registry obtained by `create, create, remove e0`, the
all-mode iterator's begin position is index 0 — a removed slot — even
though a live index (1) exists, and iteration yields the invalid handle
stored in slot 0. -/
theorem claimC2_begin_lands_on_removed_slot :
    ECSA.get_entity_count
      (runA ECSA.init [Op.create, Op.create, Op.remove (Entity.make 0 0)])
      = 2 ∧
    beginScanA
      (runA ECSA.init [Op.create, Op.create, Op.remove (Entity.make 0 0)])
      (iterMask []) 2 0 = 0 ∧
    Entity.is_valid (ECSA.get_entity_from_index
      (runA ECSA.init [Op.create, Op.create, Op.remove (Entity.make 0 0)])
      0) = false ∧
    Entity.is_valid (ECSA.get_entity_from_index
      (runA ECSA.init [Op.create, Op.create, Op.remove (Entity.make 0 0)])
      1) = true ∧
    iterListA
      (runA ECSA.init [Op.create, Op.create, Op.remove (Entity.make 0 0)])
      [] = [Entity.make INVALID_INDEX 1, Entity.make 1 0] :=
  ⟨by decide, by decide, by decide, by decide, by decide⟩

/-- C3: once the slot owning an active handle is removed, that handle
never tests live again in any later state reachable by further API
calls, as long as the whole trace stays within entity capacity and is
shorter than `2 ^ 32` ops (so the 32-bit generation counter cannot
wrap). -/
theorem claimC3_removed_handle_never_live_again
    (ops1 ops2 : List Op) (e : Entity)
    (hsafe : safeA ECSA.init (ops1 ++ Op.remove e :: ops2) = true)
    (hlen : ops1.length + ops2.length + 1 < U32)
    (hact : (runA ECSA.init ops1).is_entity_handle_active e = true) :
    ECSA.is_entity_handle_active
      (runA ECSA.init (ops1 ++ Op.remove e :: ops2)) e = false := by
  have hsplit : ops1 ++ Op.remove e :: ops2 =
      (ops1 ++ [Op.remove e]) ++ ops2 := by simp
  rw [hsplit, runA_append, runA_append]
  rw [hsplit, safeA_append, Bool.and_eq_true] at hsafe
  obtain ⟨hs12, hs3⟩ := hsafe
  rw [safeA_append, Bool.and_eq_true] at hs12
  obtain ⟨hs1, _⟩ := hs12
  rw [runA_append] at hs3
  have hinv1 : InvA (runA ECSA.init ops1) := InvA.init.run ops1 hs1
  have hgen0 : ∀ i,
      ((ECSA.init).ents.entities i).id.get_generation ≤ 0 := by
    intro i
    show Entity.Invalid.get_generation ≤ 0
    decide
  have hgen1 := gen_le_run hgen0 ops1
  simp only [Nat.zero_add] at hgen1
  have hidx1 : e.get_index < (runA ECSA.init ops1).ents.count :=
    hinv1.active_lt hact
  have hslot1 : ((runA ECSA.init ops1).ents.entities e.get_index).id = e :=
    ECSA.active_slot hact
  have hegen : e.get_generation ≤ ops1.length := by
    have := hgen1 e.get_index
    rw [hslot1] at this
    exact this
  have hstep : runA (runA ECSA.init ops1) [Op.remove e] =
      (runA ECSA.init ops1).remove_entity e := rfl
  rw [hstep] at hs3 ⊢
  have hents2 : ((runA ECSA.init ops1).remove_entity e).ents =
      (runA ECSA.init ops1).ents.remove_entity e := by
    rw [ECSA.remove_entity_of_active hact]
  have hinv2 : InvA ((runA ECSA.init ops1).remove_entity e) :=
    hinv1.removeEnt e
  have hgen2 : ∀ i,
      (((runA ECSA.init ops1).remove_entity e).ents.entities
        i).id.get_generation ≤ ops1.length + 1 :=
    gen_le_step hgen1 (Op.remove e)
  have hidx2 : e.get_index <
      ((runA ECSA.init ops1).remove_entity e).ents.count := by
    rw [hents2]
    dsimp only [EntityArray.remove_entity]
    exact hidx1
  have hgt2 : e.get_generation <
      (((runA ECSA.init ops1).remove_entity e).ents.entities
        e.get_index).id.get_generation := by
    rw [hents2]
    dsimp only [EntityArray.remove_entity]
    rw [updFn_same]
    simp only [Entity.get_generation_make]
    have hmod : (e.get_generation + 1) % U32 = e.get_generation + 1 :=
      Nat.mod_eq_of_lt (by omega)
    omega
  have hlen2 : (ops1.length + 1) + ops2.length < U32 := by omega
  have hfin := dead_gen_persist_run (e := e) ops2 hinv2 hgen2 hlen2 hs3
    hidx2 hgt2
  have hne : (runA ((runA ECSA.init ops1).remove_entity e) ops2).ents.get_id
      e.get_index ≠ e := by
    intro hc
    have hgeq := congrArg Entity.get_generation hc
    rw [EntityArray.get_id] at hgeq
    omega
  rw [ECSA.is_entity_handle_active, decide_eq_false hne]
  simp


/-- C3 witness: create `e0`, remove it, create again (which recycles
index 0 with generation 1) — the old handle stays dead. -/
theorem claimC3_witness :
    ECSA.is_entity_handle_active
      (runA ECSA.init
        ([Op.create] ++ Op.remove (Entity.make 0 0) :: [Op.create]))
      (Entity.make 0 0) = false :=
  claimC3_removed_handle_never_live_again [Op.create] [Op.create]
    (Entity.make 0 0) (by decide) (by decide) (by decide)

/-- C4: from a state with an empty free stack, removing active entity
`e` and then creating a new entity reuses index `e.get_index` with
generation `e.get_generation + 1`, and every other active entity
remains active with its handle unchanged. -/
theorem claimC4_free_list_reuse (s : ECSA) (e : Entity)
    (hfree : s.ents.free = [])
    (hact : s.is_entity_handle_active e = true)
    (hgen : e.get_generation + 1 < U32) :
    (ECSA.create_entity (s.remove_entity e)).2.get_index = e.get_index ∧
    (ECSA.create_entity (s.remove_entity e)).2.get_generation =
      e.get_generation + 1 ∧
    ∀ e2, s.is_entity_handle_active e2 = true → e2 ≠ e →
      ECSA.is_entity_handle_active
        (ECSA.create_entity (s.remove_entity e)).1 e2 = true := by
  have hiU : e.get_index < U32 := Entity.get_index_lt e
  have hents1 : (s.remove_entity e).ents = s.ents.remove_entity e := by
    rw [ECSA.remove_entity_of_active hact]
  have hfree1 : (s.ents.remove_entity e).free = [e.get_index] := by
    dsimp only [EntityArray.remove_entity]
    rw [hfree]
  have hslotgen : ((s.ents.remove_entity e).entities
      e.get_index).id.get_generation = e.get_generation + 1 := by
    dsimp only [EntityArray.remove_entity]
    rw [updFn_same]
    simp only [Entity.get_generation_make]
    exact Nat.mod_eq_of_lt hgen
  have hpop := EntityArray.create_pop hfree1 hiU
  have hsnd : (ECSA.create_entity (s.remove_entity e)).2 =
      Entity.make e.get_index
        ((s.ents.remove_entity e).entities e.get_index).id.get_generation
      := by
    rw [ECSA.create_snd, hents1, hpop]
  refine ⟨?_, ?_, ?_⟩
  · rw [hsnd, Entity.get_index_make]
    exact Nat.mod_eq_of_lt hiU
  · rw [hsnd, Entity.get_generation_make, hslotgen]
    exact Nat.mod_eq_of_lt hgen
  · intro e2 hact2 hne
    have hne_idx : e2.get_index ≠ e.get_index := by
      intro hcon
      have h1 := ECSA.active_slot hact2
      have h2 := ECSA.active_slot hact
      rw [hcon, h2] at h1
      exact hne h1.symm
    have hfst : (ECSA.create_entity (s.remove_entity e)).1.ents =
        (s.ents.remove_entity e).create_entity.1 := by
      rw [ECSA.create_fst, hents1]
    rw [ECSA.active_iff]
    refine ⟨(ECSA.active_iff.mp hact2).1, ?_⟩
    show (ECSA.create_entity (s.remove_entity e)).1.ents.get_id
      e2.get_index = e2
    rw [hfst, hpop]
    dsimp only [EntityArray.get_id]
    have hidx_ne : e2.get_index ≠
        (Entity.make e.get_index
          ((s.ents.remove_entity e).entities
            e.get_index).id.get_generation).get_index := by
      rw [Entity.get_index_make, Nat.mod_eq_of_lt hiU]
      exact hne_idx
    rw [updFn_ne _ _ _ _ hne_idx]
    dsimp only [EntityArray.remove_entity]
    rw [updFn_ne _ _ _ _ hne_idx]
    exact (ECSA.active_iff.mp hact2).2

/-- C4 witness: the concrete `e0..e3` scenario: remove `e2`, create
`e4`; `e4` has index 2 and generation 1, and `e1` is still active. -/
theorem claimC4_witness :
    (ECSA.create_entity (ECSA.remove_entity
      (runA ECSA.init [Op.create, Op.create, Op.create, Op.create])
      (Entity.make 2 0))).2.get_index = 2 ∧
    (ECSA.create_entity (ECSA.remove_entity
      (runA ECSA.init [Op.create, Op.create, Op.create, Op.create])
      (Entity.make 2 0))).2.get_generation = 1 ∧
    ECSA.is_entity_handle_active
      (ECSA.create_entity (ECSA.remove_entity
        (runA ECSA.init [Op.create, Op.create, Op.create, Op.create])
        (Entity.make 2 0))).1 (Entity.make 1 0) = true := by
  have h := claimC4_free_list_reuse
    (runA ECSA.init [Op.create, Op.create, Op.create, Op.create])
    (Entity.make 2 0) (by decide) (by decide) (by decide)
  refine ⟨?_, ?_, ?_⟩
  · rw [h.1]
    decide
  · rw [h.2.1]
    decide
  · exact h.2.2 (Entity.make 1 0) (by decide) (by decide)

/-- C5: on any within-capacity reachable registry, the iterator
requesting a non-empty set of component types yields exactly the
entities at the indices in `[0, entity_count)` that are live and whose
mask contains every requested bit, in ascending index order, each
exactly once. -/
theorem claimC5_iterator_completeness (ops : List Op) (cs : List (Fin 32))
    (hsafe : safeA ECSA.init ops = true) (hcs : cs ≠ []) :
    iterListA (runA ECSA.init ops) cs =
      iterSpec (runA ECSA.init ops) (iterMask cs) ∧
    (iterListA (runA ECSA.init ops) cs).Nodup := by
  have hinv := InvA.init.run ops hsafe
  have heq := iterListA_eq_iterSpec hinv.dead_mask_iter hcs
  exact ⟨heq, heq ▸ iterSpec_nodup hinv (iterMask cs)⟩

/-- C5 witness: attach component 0 to `e0, e1` and component 1 to `e1`
only; the iterator over both components matches the spec-side filter. -/
theorem claimC5_witness :
    iterListA
      (runA ECSA.init [Op.create, Op.create,
        Op.addComp 0 (Entity.make 0 0), Op.addComp 0 (Entity.make 1 0),
        Op.addComp 1 (Entity.make 1 0)]) [0, 1] =
      iterSpec
        (runA ECSA.init [Op.create, Op.create,
          Op.addComp 0 (Entity.make 0 0), Op.addComp 0 (Entity.make 1 0),
          Op.addComp 1 (Entity.make 1 0)]) (iterMask [0, 1]) ∧
    (iterListA
      (runA ECSA.init [Op.create, Op.create,
        Op.addComp 0 (Entity.make 0 0), Op.addComp 0 (Entity.make 1 0),
        Op.addComp 1 (Entity.make 1 0)]) [0, 1]).Nodup :=
  claimC5_iterator_completeness
    [Op.create, Op.create, Op.addComp 0 (Entity.make 0 0),
      Op.addComp 0 (Entity.make 1 0), Op.addComp 1 (Entity.make 1 0)]
    [0, 1] (by decide) (by decide)

/-- C6: on any within-capacity reachable registry, bit `c` of the mask
of slot `i` is set iff the store for component type `c` exists and holds
a value for entity index `i`; equivalently, for live handles,
`has_component` agrees with the mask test. -/
theorem claimC6_mask_store_consistency (ops : List Op)
    (hsafe : safeA ECSA.init ops = true) :
    (∀ (c : Fin 32) (i : Nat),
      c ∈ (runA ECSA.init ops).ents.get_component_mask i ↔
        ∃ st, (runA ECSA.init ops).stores c = some st ∧
          st.has_data i = true) ∧
    (∀ (c : Fin 32) (e : Entity),
      ECSA.is_entity_handle_active (runA ECSA.init ops) e = true →
      (ECSA.has_component (runA ECSA.init ops) c e = true ↔
        c ∈ (runA ECSA.init ops).ents.get_component_mask e.get_index)) := by
  have hinv := InvA.init.run ops hsafe
  refine ⟨fun c i => hinv.mask_store c i, fun c e hact => ?_⟩
  rw [ECSA.has_component, hact]
  simp

/-- C6 witness: after creating `e0` and attaching component 0, the
store for component 0 exists and holds index 0. -/
theorem claimC6_witness :
    ∃ st, (runA ECSA.init
      [Op.create, Op.addComp 0 (Entity.make 0 0)]).stores 0 = some st ∧
      st.has_data 0 = true :=
  ((claimC6_mask_store_consistency
    [Op.create, Op.addComp 0 (Entity.make 0 0)] (by decide)).1 0 0).mp
    (by decide)


/-- C7 counterexample: the claim constrains only removes, but inserting
the same entity twice (allowed by the claim as stated) breaks the
round-trip `forward (reverse d) = d`: after `insert 7; insert 7` the
reverse map sends dense slot 0 to entity 7 while the forward map sends
entity 7 to dense slot 1. -/
theorem claimC7_counterexample :
    ¬ (∀ d e,
      StoreA.reverse
        (StoreA.insert_data (StoreA.insert_data StoreA.empty 7 0) 7 0) d =
        some e →
      StoreA.forward
        (StoreA.insert_data (StoreA.insert_data StoreA.empty 7 0) 7 0) e =
        some d) :=
  fun h => absurd (h 0 7 (by decide)) (by decide)

/-- C7 (amended): for every sequence of store operations in which
removes target only held entities AND inserts target only entities not
currently held, the resulting store is densely packed — the reverse map
is populated exactly on `[0, size)` — and the two index maps are
mutually inverse. -/
theorem claimC7_dense_packing (ops : List StoreOp)
    (hok : okStore StoreA.empty ops = true) :
    (∀ d, ((runStore StoreA.empty ops).reverse d).isSome ↔
      d < (runStore StoreA.empty ops).size) ∧
    (∀ d e, (runStore StoreA.empty ops).reverse d = some e →
      (runStore StoreA.empty ops).forward e = some d) ∧
    (∀ e d, (runStore StoreA.empty ops).forward e = some d →
      (runStore StoreA.empty ops).reverse d = some e) := by
  have h := SInvA.runStore SInvA.empty ops hok
  exact ⟨h.rev_size, h.rev_fwd, h.fwd_rev⟩

/-- C7 witness: insert entities 5 and 8, then remove 5; dense slot 0 is
occupied in the resulting store. -/
theorem claimC7_witness :
    (StoreA.reverse
      (runStore StoreA.empty
        [StoreOp.ins 5 10, StoreOp.ins 8 11, StoreOp.rem 5]) 0).isSome
      = true :=
  (claimC7_dense_packing
    [StoreOp.ins 5 10, StoreOp.ins 8 11, StoreOp.rem 5]
    (by decide)).1 0 |>.mpr (by decide)

/-- C8: removing entity `e` whose component is not at the last dense
slot relocates exactly the entity that was last in dense order (its
dense index moves from `size - 1` to `d`, its value unchanged), leaves
every other held entity's forward entry and value unchanged, and makes
`e` absent. -/
theorem claimC8_swap_remove_relocates_last (st : StoreA) (hinv : SInvA st)
    (e d : Nat) (he : st.forward e = some d) (hd : d ≠ st.size - 1) :
    (st.remove_data e).has_data e = false ∧
    st.forward ((st.reverse (st.size - 1)).getD 0) = some (st.size - 1) ∧
    (st.remove_data e).forward ((st.reverse (st.size - 1)).getD 0) =
      some d ∧
    (st.remove_data e).get_data_from_entity_index
      ((st.reverse (st.size - 1)).getD 0) =
      st.get_data_from_entity_index ((st.reverse (st.size - 1)).getD 0) ∧
    (∀ e2, e2 ≠ e → e2 ≠ (st.reverse (st.size - 1)).getD 0 →
      (st.remove_data e).forward e2 = st.forward e2) ∧
    (∀ e2, e2 ≠ e → st.has_data e2 = true →
      (st.remove_data e).has_data e2 = true ∧
      (st.remove_data e).get_data_from_entity_index e2 =
        st.get_data_from_entity_index e2) := by
  have hdlt : d < st.size := hinv.fwd_lt he
  have hlast : (st.reverse (st.size - 1)).isSome := by
    rw [hinv.rev_size]
    omega
  obtain ⟨eL, hrevL⟩ := Option.isSome_iff_exists.mp hlast
  have hgetL : (st.reverse (st.size - 1)).getD 0 = eL := by
    rw [hrevL]
    rfl
  have hfL : st.forward eL = some (st.size - 1) := hinv.rev_fwd _ _ hrevL
  have heL_ne : eL ≠ e := by
    intro hcon
    rw [hcon, he] at hfL
    cases hfL
    exact hd rfl
  have hfwd2 := StoreA.remove_forward he
  have hdense2 := StoreA.remove_dense he
  rw [hgetL] at hfwd2 ⊢
  refine ⟨?_, ?_, ?_, ?_, ?_, ?_⟩
  · rw [StoreA.has_data_remove hinv he e]
    simp
  · exact hfL
  · rw [hfwd2, updFn_ne _ _ _ _ heL_ne, updFn_same]
  · rw [StoreA.get_data_from_entity_index, StoreA.get_data_from_entity_index]
    rw [hfwd2, updFn_ne _ _ _ _ heL_ne, updFn_same, hfL]
    simp only [Option.getD_some]
    rw [hdense2, updFn_same]
  · intro e2 h1 h2
    rw [hfwd2, updFn_ne _ _ _ _ h1, updFn_ne _ _ _ _ h2]
  · intro e2 h1 hh
    obtain ⟨d2, hd2⟩ := Option.isSome_iff_exists.mp hh
    constructor
    · rw [StoreA.has_data_remove hinv he e2, if_neg h1]
      exact hh
    · by_cases h2 : e2 = eL
      · rw [h2]
        rw [StoreA.get_data_from_entity_index,
          StoreA.get_data_from_entity_index]
        rw [hfwd2, updFn_ne _ _ _ _ heL_ne, updFn_same, hfL]
        simp only [Option.getD_some]
        rw [hdense2, updFn_same]
      · have hd2d : d2 ≠ d := by
          intro hcon
          have ha := hinv.fwd_rev e2 d2 hd2
          have hb := hinv.fwd_rev e d he
          rw [hcon, hb] at ha
          cases ha
          exact h1 rfl
        have hd2last : d2 ≠ st.size - 1 := by
          intro hcon
          have ha := hinv.fwd_rev e2 d2 hd2
          rw [hcon, hrevL] at ha
          cases ha
          exact h2 rfl
        rw [StoreA.get_data_from_entity_index,
          StoreA.get_data_from_entity_index]
        rw [hfwd2, updFn_ne _ _ _ _ h1, updFn_ne _ _ _ _ h2, hd2]
        simp only [Option.getD_some]
        rw [hdense2, updFn_ne _ _ _ _ hd2d]

/-- C8 witness: values 10, 11, 12 for entities 0, 1, 2; removing entity
0 (dense slot 0, not last) relocates entity 2 to dense slot 0 and makes
entity 0 absent. -/
theorem claimC8_witness :
    StoreA.has_data
      (StoreA.remove_data
        (runStore StoreA.empty
          [StoreOp.ins 0 10, StoreOp.ins 1 11, StoreOp.ins 2 12]) 0) 0 =
      false ∧
    StoreA.forward
      (StoreA.remove_data
        (runStore StoreA.empty
          [StoreOp.ins 0 10, StoreOp.ins 1 11, StoreOp.ins 2 12]) 0)
      ((StoreA.reverse
        (runStore StoreA.empty
          [StoreOp.ins 0 10, StoreOp.ins 1 11, StoreOp.ins 2 12])
        (StoreA.size
          (runStore StoreA.empty
            [StoreOp.ins 0 10, StoreOp.ins 1 11, StoreOp.ins 2 12])
          - 1)).getD 0) = some 0 := by
  have h := claimC8_swap_remove_relocates_last
    (runStore StoreA.empty
      [StoreOp.ins 0 10, StoreOp.ins 1 11, StoreOp.ins 2 12])
    (SInvA.runStore SInvA.empty _ (by decide)) 0 0 (by decide) (by decide)
  exact ⟨h.1, h.2.2.1⟩

/-- C10: removing entity `e` whose component occupies the last dense
slot (the self-swap case, including a store of size 1) decrements the
size, leaves `e` absent, clears the vacated reverse-map entry, and
leaves every other entity's map entries and value unchanged. -/
theorem claimC10_swap_remove_self (st : StoreA) (hinv : SInvA st) (e : Nat)
    (he : st.forward e = some (st.size - 1)) :
    (st.remove_data e).size = st.size - 1 ∧
    (st.remove_data e).has_data e = false ∧
    (st.remove_data e).reverse (st.size - 1) = none ∧
    (∀ e2, e2 ≠ e → (st.remove_data e).forward e2 = st.forward e2) ∧
    (∀ d2, d2 < st.size - 1 →
      (st.remove_data e).reverse d2 = st.reverse d2) ∧
    (∀ e2, e2 ≠ e → st.has_data e2 = true →
      (st.remove_data e).get_data_from_entity_index e2 =
        st.get_data_from_entity_index e2) := by
  have hrevL : st.reverse (st.size - 1) = some e := hinv.fwd_rev _ _ he
  have hgetL : (st.reverse (st.size - 1)).getD 0 = e := by
    rw [hrevL]
    rfl
  have hfwd2 := StoreA.remove_forward he
  have hrev2 := StoreA.remove_reverse he
  have hdense2 := StoreA.remove_dense he
  rw [hgetL] at hfwd2 hrev2
  refine ⟨StoreA.remove_size st e, ?_, ?_, ?_, ?_, ?_⟩
  · rw [StoreA.has_data_remove hinv he e]
    simp
  · rw [hrev2, updFn_same]
  · intro e2 h1
    rw [hfwd2, updFn_ne _ _ _ _ h1, updFn_ne _ _ _ _ h1]
  · intro d2 h2
    have hne : d2 ≠ st.size - 1 := by omega
    rw [hrev2, updFn_ne _ _ _ _ hne, updFn_ne _ _ _ _ hne]
  · intro e2 h1 hh
    obtain ⟨d2, hd2⟩ := Option.isSome_iff_exists.mp hh
    have hd2last : d2 ≠ st.size - 1 := by
      intro hcon
      have ha := hinv.fwd_rev e2 d2 hd2
      rw [hcon, hrevL] at ha
      cases ha
      exact h1 rfl
    rw [StoreA.get_data_from_entity_index, StoreA.get_data_from_entity_index]
    rw [hfwd2, updFn_ne _ _ _ _ h1, updFn_ne _ _ _ _ h1, hd2]
    simp only [Option.getD_some]
    rw [hdense2, updFn_ne _ _ _ _ hd2last]

/-- C10 witness: a store with entities 0 and 1; removing entity 1 (the
last dense slot) leaves entity 1 absent and clears reverse slot 1. -/
theorem claimC10_witness :
    StoreA.has_data
      (StoreA.remove_data
        (runStore StoreA.empty [StoreOp.ins 0 10, StoreOp.ins 1 11]) 1) 1 =
      false ∧
    StoreA.reverse
      (StoreA.remove_data
        (runStore StoreA.empty [StoreOp.ins 0 10, StoreOp.ins 1 11]) 1)
      (StoreA.size
        (runStore StoreA.empty [StoreOp.ins 0 10, StoreOp.ins 1 11]) - 1) =
      none := by
  have h := claimC10_swap_remove_self
    (runStore StoreA.empty [StoreOp.ins 0 10, StoreOp.ins 1 11])
    (SInvA.runStore SInvA.empty _ (by decide)) 1 (by decide)
  exact ⟨h.2.1, h.2.2.1⟩


/-!
Coupling of the two implementation copies (claim C9).
-/

theorem SInvA.size_le {st : StoreA} (h : SInvA st) {N : Nat}
    (hlt : ∀ e, st.has_data e = true → e < N) : st.size ≤ N := by
  classical
  have hmap : ∀ d ∈ Finset.range st.size,
      ((st.reverse d).getD 0) ∈ Finset.range N := by
    intro d hd
    rw [Finset.mem_range] at hd ⊢
    obtain ⟨e, he⟩ := Option.isSome_iff_exists.mp ((h.rev_size d).mpr hd)
    rw [he, Option.getD_some]
    apply hlt e
    rw [StoreA.has_data, h.rev_fwd d e he]
    rfl
  have hinj : Set.InjOn (fun d => (st.reverse d).getD 0)
      (Finset.range st.size) := by
    intro d1 h1 d2 h2 heq
    rw [Finset.coe_range, Set.mem_Iio] at h1 h2
    obtain ⟨e1, he1⟩ := Option.isSome_iff_exists.mp ((h.rev_size d1).mpr h1)
    obtain ⟨e2, he2⟩ := Option.isSome_iff_exists.mp ((h.rev_size d2).mpr h2)
    simp only [he1, he2, Option.getD_some] at heq
    have hf1 := h.rev_fwd d1 e1 he1
    have hf2 := h.rev_fwd d2 e2 he2
    rw [heq, hf2] at hf1
    cases hf1
    rfl
  have := Finset.card_le_card_of_injOn _ hmap hinj
  simpa using this

theorem StoreB.insert_default_eq_b (st : StoreB) (e : Nat) :
    st.insert_data_default_initialized e = st.insert_data e 0 := rfl

theorem RelStore.empty_rel (rinit : Nat → Nat) :
    RelStore StoreA.empty (StoreB.empty rinit) := by
  constructor
  · rfl
  · intro e
    simp [StoreA.empty, StoreB.empty]
  · intro d hd
    simp [StoreA.empty] at hd
  · intro d hd
    simp [StoreA.empty] at hd

theorem RelStore.has_eq {a : StoreA} {b : StoreB} (h : RelStore a b) :
    ∀ e, a.has_data e = b.has_data e := by
  intro e
  have hf := h.fwd e
  cases hfa : a.forward e with
  | some d =>
      rw [hfa] at hf
      simp only at hf
      rw [StoreA.has_data, hfa, StoreB.has_data, hf.1]
      simp [hf.2]
  | none =>
      rw [hfa] at hf
      simp only at hf
      rw [StoreA.has_data, hfa, StoreB.has_data, hf]
      simp

theorem RelStore.insert_rel {a : StoreA} {b : StoreB} (h : RelStore a b)
    (hsz : a.size ≠ INVALID_COMPONENT_INDEX) (e v : Nat) :
    RelStore (a.insert_data e v) (b.insert_data e v) := by
  have hsize := h.size_eq
  constructor
  · show a.size + 1 = b.size + 1
    omega
  · intro e2
    show (match updFn a.forward e (some a.size) e2 with
      | some d => updFn b.forward e b.size e2 = d ∧
          d ≠ INVALID_COMPONENT_INDEX
      | none => updFn b.forward e b.size e2 = INVALID_COMPONENT_INDEX)
    by_cases he2 : e2 = e
    · rw [he2, updFn_same, updFn_same]
      exact ⟨hsize.symm, hsz⟩
    · rw [updFn_ne _ _ _ _ he2, updFn_ne _ _ _ _ he2]
      exact h.fwd e2
  · intro d hd
    show updFn a.reverse a.size (some e) d =
      some (updFn b.reverse b.size e d)
    show updFn a.reverse a.size (some e) d =
      some (updFn b.reverse b.size e d)
    by_cases hde : d = a.size
    · rw [hde, updFn_same, ← hsize, updFn_same]
    · rw [updFn_ne _ _ _ _ hde,
        updFn_ne _ _ _ _ (by omega : d ≠ b.size)]
      exact h.rev d (by
        have : d < a.size + 1 := hd
        omega)
  · intro d hd
    show updFn a.dense a.size v d = updFn b.dense b.size v d
    by_cases hde : d = a.size
    · rw [hde, updFn_same, ← hsize, updFn_same]
    · rw [updFn_ne _ _ _ _ hde,
        updFn_ne _ _ _ _ (by omega : d ≠ b.size)]
      exact h.dense d (by
        have : d < a.size + 1 := hd
        omega)

theorem RelStore.remove_rel {a : StoreA} {b : StoreB} (h : RelStore a b)
    (ha : SInvA a) {e d0 : Nat} (he : a.forward e = some d0) :
    RelStore (a.remove_data e) (b.remove_data e) := by
  have hsize := h.size_eq
  have hd0 : d0 < a.size := ha.fwd_lt he
  have hbf : b.forward e = d0 ∧ d0 ≠ INVALID_COMPONENT_INDEX := by
    have := h.fwd e
    rw [he] at this
    exact this
  have hlast : (a.reverse (a.size - 1)).isSome := by
    rw [ha.rev_size]
    omega
  obtain ⟨eL, hrevL⟩ := Option.isSome_iff_exists.mp hlast
  have hbL : b.reverse (b.size - 1) = eL := by
    have hrel := h.rev (a.size - 1) (by omega)
    rw [hrevL, hsize] at hrel
    exact ((Option.some.injEq _ _).mp hrel).symm
  have hgetL : (a.reverse (a.size - 1)).getD 0 = eL := by
    rw [hrevL]
    rfl
  have hafwd := StoreA.remove_forward he
  have harev := StoreA.remove_reverse he
  have hadense := StoreA.remove_dense he
  rw [hgetL] at hafwd harev
  have hbfwd : (b.remove_data e).forward =
      updFn (updFn b.forward eL d0) e INVALID_COMPONENT_INDEX := by
    dsimp only [StoreB.remove_data]
    rw [hbf.1, hbL]
  have hbrev : (b.remove_data e).reverse =
      updFn (updFn b.reverse d0 eL) (b.size - 1) INVALID_INDEX := by
    dsimp only [StoreB.remove_data]
    rw [hbf.1, hbL]
  have hbdense : (b.remove_data e).dense =
      updFn b.dense d0 (b.dense (b.size - 1)) := by
    dsimp only [StoreB.remove_data]
    rw [hbf.1]
  have hasz : (a.remove_data e).size = a.size - 1 := StoreA.remove_size a e
  have hbsz : (b.remove_data e).size = b.size - 1 := rfl
  constructor
  · rw [hasz, hbsz]
    omega
  · intro e2
    rw [hafwd, hbfwd]
    by_cases h1 : e2 = e
    · rw [h1, updFn_same, updFn_same]
    · rw [updFn_ne _ _ _ _ h1, updFn_ne _ _ _ _ h1]
      by_cases h2 : e2 = eL
      · rw [h2, updFn_same, updFn_same]
        exact ⟨rfl, hbf.2⟩
      · rw [updFn_ne _ _ _ _ h2, updFn_ne _ _ _ _ h2]
        exact h.fwd e2
  · intro d hd
    rw [hasz] at hd
    rw [harev, hbrev]
    have hdlast : d ≠ a.size - 1 := by omega
    have hdlastb : d ≠ b.size - 1 := by omega
    rw [updFn_ne _ _ _ _ hdlast, updFn_ne _ _ _ _ hdlastb]
    by_cases hdd : d = d0
    · rw [hdd, updFn_same, updFn_same]
    · rw [updFn_ne _ _ _ _ hdd, updFn_ne _ _ _ _ hdd]
      exact h.rev d (by omega)
  · intro d hd
    rw [hasz] at hd
    rw [hadense, hbdense]
    by_cases hdd : d = d0
    · rw [hdd, updFn_same, updFn_same, ← hsize]
      exact h.dense (a.size - 1) (by omega)
    · rw [updFn_ne _ _ _ _ hdd, updFn_ne _ _ _ _ hdd]
      exact h.dense d (by omega)

theorem RelStore.on_entity_removed {a : StoreA} {b : StoreB}
    (h : RelStore a b) (ha : SInvA a) (i : Nat) :
    RelStore (a.on_entity_removed i) (b.on_entity_removed i) := by
  rw [StoreA.on_entity_removed, StoreB.on_entity_removed,
    ← h.has_eq i]
  by_cases hh : a.has_data i = true
  · rw [if_pos hh, if_pos hh]
    obtain ⟨d0, hd0⟩ := Option.isSome_iff_exists.mp hh
    exact RelStore.remove_rel h ha hd0
  · rw [if_neg hh, if_neg hh]
    exact h

theorem RelStore.get_eq {a : StoreA} {b : StoreB} (h : RelStore a b)
    (ha : SInvA a) {e : Nat} (hh : a.has_data e = true) :
    a.get_data_from_entity_index e = b.get_data_from_entity_index e := by
  obtain ⟨d0, hd0⟩ := Option.isSome_iff_exists.mp hh
  have hbf : b.forward e = d0 ∧ d0 ≠ INVALID_COMPONENT_INDEX := by
    have := h.fwd e
    rw [hd0] at this
    exact this
  rw [StoreA.get_data_from_entity_index, StoreB.get_data_from_entity_index]
  rw [hd0, hbf.1]
  simp only [Option.getD_some]
  exact h.dense d0 (ha.fwd_lt hd0)


theorem ECSB.create_fst_b (s : ECSB) :
    (s.create_entity).1 = { s with ents := (s.ents.create_entity).1 } := rfl

theorem ECSB.create_snd_b (s : ECSB) :
    (s.create_entity).2 = (s.ents.create_entity).2 := rfl

theorem ECSB.remove_entity_of_active_b {s : ECSB} {e : Entity}
    (ha : s.is_entity_handle_active e = true) :
    s.remove_entity e =
      { ents := s.ents.remove_entity e,
        stores := fun c =>
          match s.stores c with
          | some st => some (st.on_entity_removed e.get_index)
          | none => none } := by
  rw [ECSB.remove_entity, if_pos ha]

theorem ECSB.remove_entity_of_inactive_b {s : ECSB} {e : Entity}
    (ha : s.is_entity_handle_active e = false) :
    s.remove_entity e = s := by
  rw [ECSB.remove_entity, if_neg (by simp [ha])]

theorem ECSB.get_component_array_some_b {rinit : Fin 32 → Nat → Nat}
    {s : ECSB} {c : Fin 32} {st : StoreB} (hst : s.stores c = some st) :
    ECSB.get_component_array rinit s c = st := by
  simp [ECSB.get_component_array, hst]

theorem ECSB.get_component_array_none_b {rinit : Fin 32 → Nat → Nat}
    {s : ECSB} {c : Fin 32} (hst : s.stores c = none) :
    ECSB.get_component_array rinit s c = StoreB.empty (rinit c) := by
  simp [ECSB.get_component_array, hst]

theorem ECSB.addComp_fail_b {rinit : Fin 32 → Nat → Nat} {s : ECSB}
    {c : Fin 32} {e : Entity}
    (hg : ¬ s.is_entity_handle_active e ∨
      c ∈ s.ents.get_component_mask e.get_index) :
    s.add_component_to_entity rinit c e = (s, false) := by
  simp only [ECSB.add_component_to_entity]
  rw [if_pos hg]

theorem ECSB.addComp_success_b {rinit : Fin 32 → Nat → Nat} {s : ECSB}
    {c : Fin 32} {e : Entity}
    (hact : s.is_entity_handle_active e = true)
    (hmask : c ∉ s.ents.get_component_mask e.get_index) :
    s.add_component_to_entity rinit c e =
      ({ ents := { s.ents with
            entities := updFn s.ents.entities e.get_index
              ⟨(s.ents.entities e.get_index).id,
                insert c (s.ents.entities e.get_index).mask⟩ },
          stores := updC s.stores c
            (some (StoreB.insert_data_default_initialized
              (ECSB.get_component_array rinit s c) e.get_index)) },
        true) := by
  simp only [ECSB.add_component_to_entity]
  rw [if_neg (by simp [hact, hmask])]

theorem ECSB.removeComp_fail_b {rinit : Fin 32 → Nat → Nat} {s : ECSB}
    {c : Fin 32} {e : Entity}
    (hg : ¬ s.is_entity_handle_active e ∨
      c ∉ s.ents.get_component_mask e.get_index) :
    s.remove_component_from_entity rinit c e = (s, false) := by
  simp only [ECSB.remove_component_from_entity]
  rw [if_pos hg]

theorem ECSB.removeComp_success_b {rinit : Fin 32 → Nat → Nat} {s : ECSB}
    {c : Fin 32} {e : Entity}
    (hact : s.is_entity_handle_active e = true)
    (hmask : c ∈ s.ents.get_component_mask e.get_index) :
    s.remove_component_from_entity rinit c e =
      ({ ents := { s.ents with
            entities := updFn s.ents.entities e.get_index
              ⟨(s.ents.entities e.get_index).id,
                ((s.ents.entities e.get_index).mask).erase c⟩ },
          stores := updC s.stores c
            (some (StoreB.remove_data
              (ECSB.get_component_array rinit s c) e.get_index)) },
        true) := by
  simp only [ECSB.remove_component_from_entity]
  rw [if_neg (by simp [hact, hmask])]

/-!
With identical entity tables, the two copies' iterators produce the
same sequence (the only structural difference — reading the live entity
count versus the captured one — vanishes on a fixed snapshot).
-/

theorem cnt_AB {s : ECSA} {t : ECSB} (hents : s.ents = t.ents) :
    t.get_entity_count = s.get_entity_count := by
  rw [ECSB.get_entity_count, ECSA.get_entity_count, hents]

theorem mask_AB {s : ECSA} {t : ECSB} (hents : s.ents = t.ents) :
    ∀ j, t.get_component_mask_from_index j =
      s.get_component_mask_from_index j := by
  intro j
  rw [ECSB.get_component_mask_from_index, ECSA.get_component_mask_from_index,
    EntityArray.get_component_mask, EntityArray.get_component_mask, hents]

theorem ent_AB {s : ECSA} {t : ECSB} (hents : s.ents = t.ents) :
    ∀ j, t.get_entity_from_index j = s.get_entity_from_index j := by
  intro j
  rw [ECSB.get_entity_from_index, ECSA.get_entity_from_index,
    EntityArray.get_id, EntityArray.get_id, hents]

theorem active_AB {s : ECSA} {t : ECSB} (hents : s.ents = t.ents) :
    ∀ e, t.is_entity_handle_active e = s.is_entity_handle_active e := by
  intro e
  rw [ECSB.is_entity_handle_active, ECSA.is_entity_handle_active,
    EntityArray.get_id, EntityArray.get_id, hents]

theorem valid_AB {s : ECSA} {t : ECSB} (hents : s.ents = t.ents)
    (req : Mask) (all : Bool) :
    ∀ j, validIndexB t req all j = validIndexA s req all j := by
  intro j
  rw [validIndexB, validIndexA, ent_AB hents, mask_AB hents]

theorem beginScan_AB {s : ECSA} {t : ECSB} (hents : s.ents = t.ents)
    (req : Mask) :
    ∀ fuel i, beginScanB t s.get_entity_count req fuel i =
      beginScanA s req fuel i := by
  intro fuel
  induction fuel with
  | zero => intro i; rfl
  | succ fuel ih =>
      intro i
      rw [beginScanB, beginScanA, mask_AB hents]
      by_cases hc : i < s.get_entity_count ∧
          ¬ maskMatch req (s.get_component_mask_from_index i) = true
      · rw [if_pos hc, if_pos hc, ih]
      · rw [if_neg hc, if_neg hc]

theorem advScan_AB {s : ECSA} {t : ECSB} (hents : s.ents = t.ents)
    (req : Mask) (all : Bool) :
    ∀ fuel i, advScanB t s.get_entity_count req all fuel i =
      advScanA s req all fuel i := by
  intro fuel
  induction fuel with
  | zero => intro i; rfl
  | succ fuel ih =>
      intro i
      rw [advScanB, advScanA, valid_AB hents]
      by_cases hc : i < s.get_entity_count ∧
          validIndexA s req all i = false
      · rw [if_pos hc, if_pos hc, ih]
      · rw [if_neg hc, if_neg hc]

theorem collect_AB {s : ECSA} {t : ECSB} (hents : s.ents = t.ents)
    (req : Mask) (all : Bool) :
    ∀ fuel i, collectB t s.get_entity_count req all fuel i =
      collectA s req all fuel i := by
  intro fuel
  induction fuel with
  | zero => intro i; rfl
  | succ fuel ih =>
      intro i
      rw [collectB, collectA, ent_AB hents]
      by_cases hc : i < s.get_entity_count
      · rw [if_pos hc, if_pos hc]
        rw [advScan_AB hents req all, ih]
        rfl
      · rw [if_neg hc, if_neg hc]

theorem iterList_AB {s : ECSA} {t : ECSB} (hents : s.ents = t.ents)
    (cs : List (Fin 32)) : iterListB t cs = iterListA s cs := by
  rw [iterListB, iterListA, cnt_AB hents, beginScan_AB hents,
    collect_AB hents]


theorem hasComp_AB {s : ECSA} {t : ECSB} (hents : s.ents = t.ents)
    (c : Fin 32) (e : Entity) :
    ECSB.has_component t c e = ECSA.has_component s c e := by
  rw [ECSB.has_component, ECSA.has_component, active_AB hents, ← hents]

theorem RelECS.array_rel {s : ECSA} {t : ECSB} (hrel : RelECS s t)
    (hinv : InvA s) (rinit : Fin 32 → Nat → Nat) (c : Fin 32) :
    RelStore (s.get_component_array c)
      (ECSB.get_component_array rinit t c) ∧
    SInvA (s.get_component_array c) ∧
    (s.get_component_array c).size ≠ INVALID_COMPONENT_INDEX := by
  have hr := hrel.stores c
  cases hsc : s.stores c with
  | some sa =>
      cases htc : t.stores c with
      | some sb =>
          rw [hsc, htc] at hr
          have hrs : RelStore sa sb := hr
          rw [ECSA.get_component_array_some hsc,
            ECSB.get_component_array_some_b htc]
          have hs : SInvA sa := hinv.store_inv c sa hsc
          refine ⟨hrs, hs, ?_⟩
          have hsz : sa.size ≤ s.ents.count :=
            hs.size_le (fun e he => hinv.store_lt c sa e hsc he)
          have hcle := hinv.count_le
          simp only [MAX_ENTITIES, INVALID_COMPONENT_INDEX] at *
          omega
      | none =>
          rw [hsc, htc] at hr
          exact hr.elim
  | none =>
      cases htc : t.stores c with
      | some sb =>
          rw [hsc, htc] at hr
          exact hr.elim
      | none =>
          rw [ECSA.get_component_array_none hsc,
            ECSB.get_component_array_none_b htc]
          refine ⟨RelStore.empty_rel (rinit c), SInvA.empty, ?_⟩
          simp [StoreA.empty, INVALID_COMPONENT_INDEX]

theorem step_AB {s : ECSA} {t : ECSB} (rinit : Fin 32 → Nat → Nat)
    (hinv : InvA s) (hrel : RelECS s t) {op : Op}
    (hok : stepOKA s op = true) :
    (stepA s op).2 = (stepB rinit t op).2 ∧
    RelECS (stepA s op).1 (stepB rinit t op).1 := by
  have hents := hrel.ents_eq
  cases op with
  | create =>
      constructor
      · show Out.ent (s.create_entity).2 = Out.ent (t.create_entity).2
        rw [ECSA.create_snd, ECSB.create_snd_b, hents]
      · constructor
        · show (s.create_entity).1.ents = (t.create_entity).1.ents
          show (s.ents.create_entity).1 = (t.ents.create_entity).1
          rw [hents]
        · intro c
          exact hrel.stores c
  | remove e =>
      have hact_eq := active_AB hents e
      refine ⟨rfl, ?_⟩
      show RelECS (s.remove_entity e) (t.remove_entity e)
      by_cases ha : s.is_entity_handle_active e = true
      · rw [ECSA.remove_entity_of_active ha,
          ECSB.remove_entity_of_active_b (by rw [hact_eq]; exact ha)]
        constructor
        · show s.ents.remove_entity e = t.ents.remove_entity e
          rw [hents]
        · intro c
          have hr := hrel.stores c
          show RelOpt
            (match s.stores c with
              | some st => some (st.on_entity_removed e.get_index)
              | none => none)
            (match t.stores c with
              | some st => some (st.on_entity_removed e.get_index)
              | none => none)
          cases hsc : s.stores c with
          | some sa =>
              cases htc : t.stores c with
              | some sb =>
                  rw [hsc, htc] at hr
                  have hrs : RelStore sa sb := hr
                  exact hrs.on_entity_removed (hinv.store_inv c sa hsc)
                    e.get_index
              | none =>
                  rw [hsc, htc] at hr
                  exact hr.elim
          | none =>
              cases htc : t.stores c with
              | some sb =>
                  rw [hsc, htc] at hr
                  exact hr.elim
              | none => trivial
      · rw [ECSA.remove_entity_of_inactive (by simpa using ha),
          ECSB.remove_entity_of_inactive_b
            (by rw [hact_eq]; simpa using ha)]
        exact hrel
  | addComp c e =>
      have hgoal : ((stepA s (Op.addComp c e)).2 =
            (stepB rinit t (Op.addComp c e)).2 ∧
          RelECS (stepA s (Op.addComp c e)).1
            (stepB rinit t (Op.addComp c e)).1) ↔
          (Out.ok (s.add_component_to_entity c e).2 =
            Out.ok (t.add_component_to_entity rinit c e).2 ∧
          RelECS (s.add_component_to_entity c e).1
            (t.add_component_to_entity rinit c e).1) := Iff.rfl
      rw [hgoal]
      by_cases hg : ¬ s.is_entity_handle_active e ∨
          c ∈ s.ents.get_component_mask e.get_index
      · have hgB : ¬ t.is_entity_handle_active e ∨
            c ∈ t.ents.get_component_mask e.get_index := by
          rw [active_AB hents, ← hents]
          exact hg
        rw [ECSA.addComp_fail hg, ECSB.addComp_fail_b hgB]
        exact ⟨rfl, hrel⟩
      · push_neg at hg
        have hact : s.is_entity_handle_active e = true := by
          simpa using hg.1
        have hmask := hg.2
        have hactB : t.is_entity_handle_active e = true := by
          rw [active_AB hents]
          exact hact
        have hmaskB : c ∉ t.ents.get_component_mask e.get_index := by
          rw [← hents]
          exact hmask
        rw [ECSA.addComp_success hact hmask,
          ECSB.addComp_success_b hactB hmaskB]
        obtain ⟨harel, hasinv, hasz⟩ := hrel.array_rel hinv rinit c
        refine ⟨rfl, ?_, ?_⟩
        · dsimp only
          rw [hents]
        · intro c2
          dsimp only
          by_cases hc2 : c2 = c
          · rw [hc2, updC_same, updC_same]
            show RelStore _ _
            rw [StoreA.insert_default_eq, StoreB.insert_default_eq_b]
            exact RelStore.insert_rel harel hasz e.get_index 0
          · rw [updC_ne _ _ _ _ hc2, updC_ne _ _ _ _ hc2]
            exact hrel.stores c2
  | removeComp c e =>
      have hgoal : ((stepA s (Op.removeComp c e)).2 =
            (stepB rinit t (Op.removeComp c e)).2 ∧
          RelECS (stepA s (Op.removeComp c e)).1
            (stepB rinit t (Op.removeComp c e)).1) ↔
          (Out.ok (s.remove_component_from_entity c e).2 =
            Out.ok (t.remove_component_from_entity rinit c e).2 ∧
          RelECS (s.remove_component_from_entity c e).1
            (t.remove_component_from_entity rinit c e).1) := Iff.rfl
      rw [hgoal]
      by_cases hg : ¬ s.is_entity_handle_active e ∨
          c ∉ s.ents.get_component_mask e.get_index
      · have hgB : ¬ t.is_entity_handle_active e ∨
            c ∉ t.ents.get_component_mask e.get_index := by
          rw [active_AB hents, ← hents]
          exact hg
        rw [ECSA.removeComp_fail hg, ECSB.removeComp_fail_b hgB]
        exact ⟨rfl, hrel⟩
      · push_neg at hg
        have hact : s.is_entity_handle_active e = true := by
          simpa using hg.1
        have hmask := hg.2
        have hactB : t.is_entity_handle_active e = true := by
          rw [active_AB hents]
          exact hact
        have hmaskB : c ∈ t.ents.get_component_mask e.get_index := by
          rw [← hents]
          exact hmask
        rw [ECSA.removeComp_success hact hmask,
          ECSB.removeComp_success_b hactB hmaskB]
        obtain ⟨harel, hasinv, _⟩ := hrel.array_rel hinv rinit c
        obtain ⟨st0, hst0, hhas0⟩ :=
          (hinv.mask_store c e.get_index).mp hmask
        have hga : s.get_component_array c = st0 :=
          ECSA.get_component_array_some hst0
        have hhas : (s.get_component_array c).has_data e.get_index
            = true := by
          rw [hga]
          exact hhas0
        obtain ⟨d0, hd0⟩ := Option.isSome_iff_exists.mp hhas
        refine ⟨rfl, ?_, ?_⟩
        · dsimp only
          rw [hents]
        · intro c2
          dsimp only
          by_cases hc2 : c2 = c
          · rw [hc2, updC_same, updC_same]
            show RelStore _ _
            exact RelStore.remove_rel harel hasinv hd0
          · rw [updC_ne _ _ _ _ hc2, updC_ne _ _ _ _ hc2]
            exact hrel.stores c2
  | hasComp c e =>
      refine ⟨?_, hrel⟩
      show Out.ok (s.has_component c e) = Out.ok (t.has_component c e)
      rw [hasComp_AB hents]
  | getComp c e =>
      refine ⟨?_, hrel⟩
      show Out.val (s.get_component c e) =
        Out.val (ECSB.get_component rinit t c e)
      rw [ECSA.get_component, ECSB.get_component, hasComp_AB hents]
      by_cases hh : s.has_component c e = true
      · rw [if_pos hh, if_pos hh]
        obtain ⟨harel, hasinv, _⟩ := hrel.array_rel hinv rinit c
        have hhB : c ∈ s.ents.get_component_mask e.get_index := by
          rw [ECSA.has_component, Bool.and_eq_true] at hh
          exact of_decide_eq_true hh.2
        obtain ⟨st0, hst0, hhas0⟩ :=
          (hinv.mask_store c e.get_index).mp hhB
        have hhas : (s.get_component_array c).has_data e.get_index
            = true := by
          rw [ECSA.get_component_array_some hst0]
          exact hhas0
        rw [harel.get_eq hasinv hhas]
      · rw [if_neg hh, if_neg hh]
  | iterate cs =>
      refine ⟨?_, hrel⟩
      show Out.list (iterListA s cs) = Out.list (iterListB t cs)
      rw [iterList_AB hents]

theorem outs_AB (rinit : Fin 32 → Nat → Nat) (ops : List Op) :
    ∀ {s : ECSA} {t : ECSB}, InvA s → RelECS s t → safeA s ops = true →
    outsA s ops = outsB rinit t ops := by
  induction ops with
  | nil => intro s t _ _ _; rfl
  | cons op rest ih =>
      intro s t hinv hrel hsafe
      rw [safeA, Bool.and_eq_true] at hsafe
      have hstep := step_AB rinit hinv hrel hsafe.1
      rw [outsA, outsB, hstep.1]
      congr 1
      exact ih (hinv.step hsafe.1) hstep.2 hsafe.2

/-- C9: the standalone-header copy (unordered-map component stores,
embedded as ECSA with outputs outsA) and the split header/inline copy
(fixed-array component stores with sentinel markers, embedded as ECSB
with outputs outsB) are observationally equivalent: for every
capacity-safe sequence of API operations run from the fresh registries,
and for every initial contents rinit of the split copy's never-written
reverse-map array cells, both copies return the same results and yield
the same entity sequences under iteration. -/
theorem claimC9_copies_observationally_equivalent
    (rinit : Fin 32 → Nat → Nat) (ops : List Op)
    (hsafe : safeA ECSA.init ops = true) :
    outsA ECSA.init ops = outsB rinit ECSB.init ops :=
  outs_AB rinit ops InvA.init ⟨rfl, fun _ => trivial⟩ hsafe

theorem claimC9_witness :
    outsA ECSA.init
      [Op.create, Op.create,
        Op.addComp 0 (Entity.make 0 0), Op.addComp 0 (Entity.make 1 0),
        Op.removeComp 0 (Entity.make 0 0), Op.getComp 0 (Entity.make 1 0),
        Op.iterate [0], Op.remove (Entity.make 0 0), Op.iterate []] =
    outsB (fun _ _ => 37) ECSB.init
      [Op.create, Op.create,
        Op.addComp 0 (Entity.make 0 0), Op.addComp 0 (Entity.make 1 0),
        Op.removeComp 0 (Entity.make 0 0), Op.getComp 0 (Entity.make 1 0),
        Op.iterate [0], Op.remove (Entity.make 0 0), Op.iterate []] :=
  claimC9_copies_observationally_equivalent (fun _ _ => 37)
    [Op.create, Op.create,
      Op.addComp 0 (Entity.make 0 0), Op.addComp 0 (Entity.make 1 0),
      Op.removeComp 0 (Entity.make 0 0), Op.getComp 0 (Entity.make 1 0),
      Op.iterate [0], Op.remove (Entity.make 0 0), Op.iterate []]
    (by decide)

end Lecs
